import Mathlib

/-!
# POP3 client (`package pop3`): shallow embedding

The Go sources `error.go`, `client.go` and `message.go` are embedded as pure
functions.  Go strings are byte sequences, Go's multiple return values are
tuples, a possibly-nil `error` is an `Option GoError`, and the connection
behind a client is an explicit transport state with a log of the operations
performed on it.
-/

set_option linter.dupNamespace false
set_option linter.unusedVariables false

namespace Pop3

/-! ## Strings and errors (`error.go`) -/

/-- A Go `string`: an immutable sequence of bytes. -/
abbrev GoString := List UInt8

/-- The bytes of a string literal of the Go source (Go source text is UTF-8). -/
def str (s : String) : GoString := s.toUTF8.data.toList

/-- A non-nil value of Go's `error` interface, told apart as far as this
package can tell errors apart: the two package-level sentinels (compared by
identity in `Quit` and `Close`), a value of the package's struct type
`Error`, and every other error (results of `fmt.Errorf`, `io.EOF`, transport
failures), which matter only through their text. -/
inductive GoError where
  | errAlreadyQuit
  | errWriteAfterClose
  | plain (text : GoString)
  | structured (Context : GoString) (Err : GoError)
deriving DecidableEq, Repr

/-- The package variable `ErrAlreadyQuit`. -/
def ErrAlreadyQuit : GoError := GoError.errAlreadyQuit

/-- The package variable `ErrWriteAfterClose`. -/
def ErrWriteAfterClose : GoError := GoError.errWriteAfterClose

/-- The method `Error() string` of an `error` value; for a structured value
it is `Error.Error`: `fmt.Sprintf("pop3: %s: %v", e.Context, e.Err)`. -/
def GoError.Error : GoError → GoString
  | GoError.errAlreadyQuit => str "pop3: already quit from server"
  | GoError.errWriteAfterClose => str "pop3: write after close"
  | GoError.plain text => text
  | GoError.structured ctx err => str "pop3: " ++ ctx ++ str ": " ++ GoError.Error err

/-- The struct `Error` of `error.go`. -/
structure Error where
  Context : GoString
  Err : GoError
deriving DecidableEq, Repr

/-- An `Error` value stored in an `error` interface. -/
def Error.toError (e : Error) : GoError := GoError.structured e.Context e.Err

/-- The type assertion `errx.(Error)`. -/
def asError : GoError → Option Error
  | GoError.structured ctx err => some { Context := ctx, Err := err }
  | _ => none

/-- `newError` of `error.go`. -/
def newError (context : GoString) (errx : GoError) : Error :=
  match asError errx with
  | some err => { err with Context := err.Context ++ str ": " ++ context }
  | none => { Context := context, Err := errx }

/-- `Error.Error` of `error.go`: `fmt.Sprintf("pop3: %s: %v", e.Context, e.Err)`. -/
def Error.Error (e : Error) : GoString :=
  str "pop3: " ++ e.Context ++ str ": " ++ e.Err.Error

/-! ## Go runtime pieces the package relies on

`fmt.Errorf` with `%q` quotes with `strconv.Quote`, `fmt.Sscanf` reads runes,
and `fmt.Sprintln` renders integers with `strconv.FormatInt`.  They are
modelled here from the Go standard library. -/

/-- The size of Go's `int` on the target. -/
inductive IntSize where
  | bits32
  | bits64
deriving DecidableEq, Repr

/-- The constant `intBits` of package `fmt`. -/
def IntSize.bits : IntSize → Nat
  | IntSize.bits32 => 32
  | IntSize.bits64 => 64

/-- What the target and the Unicode tables of the Go runtime fix: the width
of `int`, and `strconv.IsPrint` on runes above U+00FF (a table lookup). -/
structure GoEnv where
  intSize : IntSize
  isPrintTable : Nat → Bool

/-- The rune `utf8.RuneError`. -/
def RuneError : Nat := 0xFFFD

/-- The function `utf8.DecodeRune`: the first rune of `p` and its width in bytes;
an invalid or truncated encoding gives `(RuneError, 1)`, empty input
`(RuneError, 0)`. -/
def DecodeRune (p : GoString) : Nat × Nat :=
  match p with
  | [] => (RuneError, 0)
  | p0 :: t =>
    let x := p0.toNat
    if x < 0x80 then (x, 1)
    else if x < 0xC2 ∨ 0xF4 < x then (RuneError, 1)
    else
      let sz := if x < 0xE0 then 2 else if x < 0xF0 then 3 else 4
      let lo := if x = 0xE0 then 0xA0 else if x = 0xF0 then 0x90 else 0x80
      let hi := if x = 0xED then 0x9F else if x = 0xF4 then 0x8F else 0xBF
      match t with
      | [] => (RuneError, 1)
      | b1 :: t1 =>
        if b1.toNat < lo ∨ hi < b1.toNat then (RuneError, 1)
        else if sz ≤ 2 then (x % 32 * 64 + b1.toNat % 64, 2)
        else
          match t1 with
          | [] => (RuneError, 1)
          | b2 :: t2 =>
            if b2.toNat < 0x80 ∨ 0xBF < b2.toNat then (RuneError, 1)
            else if sz ≤ 3 then (x % 16 * 4096 + b1.toNat % 64 * 64 + b2.toNat % 64, 3)
            else
              match t2 with
              | [] => (RuneError, 1)
              | b3 :: _ =>
                if b3.toNat < 0x80 ∨ 0xBF < b3.toNat then (RuneError, 1)
                else (x % 8 * 262144 + b1.toNat % 64 * 4096 + b2.toNat % 64 * 64
                        + b3.toNat % 64, 4)

/-- The function `utf8.AppendRune` on an empty buffer: the UTF-8 encoding of a rune. -/
def EncodeRune (r : Nat) : GoString :=
  if r ≤ 0x7F then [UInt8.ofNat r]
  else if r ≤ 0x7FF then [UInt8.ofNat (0xC0 + r / 64), UInt8.ofNat (0x80 + r % 64)]
  else
    let r := if 0x10FFFF < r ∨ (0xD800 ≤ r ∧ r ≤ 0xDFFF) then RuneError else r
    if r ≤ 0xFFFF then
      [UInt8.ofNat (0xE0 + r / 4096), UInt8.ofNat (0x80 + r / 64 % 64),
       UInt8.ofNat (0x80 + r % 64)]
    else
      [UInt8.ofNat (0xF0 + r / 262144), UInt8.ofNat (0x80 + r / 4096 % 64),
       UInt8.ofNat (0x80 + r / 64 % 64), UInt8.ofNat (0x80 + r % 64)]

/-- The runes a rune reader delivers from a byte string, one `DecodeRune` after
another; `skip` counts the bytes of the current rune still to pass over. -/
def runesFrom : Nat → GoString → List Nat
  | _, [] => []
  | skip + 1, _ :: rest => runesFrom skip rest
  | 0, b :: rest =>
    (DecodeRune (b :: rest)).1 :: runesFrom ((DecodeRune (b :: rest)).2 - 1) rest

/-- The rune sequence of a string. -/
def runes (s : GoString) : List Nat := runesFrom 0 s

/-- The function `strconv.IsPrint`. -/
def IsPrint (env : GoEnv) (r : Nat) : Bool :=
  if r ≤ 0xFF then
    if 0x20 ≤ r ∧ r ≤ 0x7E then true
    else if 0xA1 ≤ r then r != 0xAD
    else false
  else env.isPrintTable r

/-- The digit string `lowerhex` of package `strconv`, indexed. -/
def lowerhex (n : Nat) : UInt8 :=
  if n % 16 < 10 then UInt8.ofNat (48 + n % 16) else UInt8.ofNat (87 + n % 16)

/-- The function `appendEscapedRune` of `strconv` for the double quote, neither
ASCII-only nor graphic-only: the rendering of one rune inside a quoted string. -/
def appendEscapedRune (env : GoEnv) (r : Nat) : GoString :=
  if r = 0x22 ∨ r = 0x5C then [0x5C, UInt8.ofNat r]
  else if IsPrint env r then EncodeRune r
  else if r = 7 then str "\\a"
  else if r = 8 then str "\\b"
  else if r = 12 then str "\\f"
  else if r = 10 then str "\\n"
  else if r = 13 then str "\\r"
  else if r = 9 then str "\\t"
  else if r = 11 then str "\\v"
  else if r < 0x20 ∨ r = 0x7F then str "\\x" ++ [lowerhex (r / 16), lowerhex r]
  else
    let r := if 0x10FFFF < r ∨ (0xD800 ≤ r ∧ r ≤ 0xDFFF) then RuneError else r
    if r < 0x10000 then
      str "\\u" ++ [lowerhex (r / 4096), lowerhex (r / 256), lowerhex (r / 16), lowerhex r]
    else
      str "\\U" ++ [lowerhex (r / 268435456), lowerhex (r / 16777216), lowerhex (r / 1048576),
        lowerhex (r / 65536), lowerhex (r / 4096), lowerhex (r / 256), lowerhex (r / 16),
        lowerhex r]

/-- The loop of `strconv.appendQuotedWith`: rune by rune, an invalid byte as
a `\x` escape, every other rune through `appendEscapedRune`. -/
def quoteBody (env : GoEnv) : Nat → GoString → GoString
  | _, [] => []
  | skip + 1, _ :: rest => quoteBody env skip rest
  | 0, b :: rest =>
    (if (DecodeRune (b :: rest)).2 = 1 ∧ (DecodeRune (b :: rest)).1 = RuneError then
        str "\\x" ++ [lowerhex (b.toNat / 16), lowerhex b.toNat]
      else appendEscapedRune env (DecodeRune (b :: rest)).1)
      ++ quoteBody env ((DecodeRune (b :: rest)).2 - 1) rest

/-- The function `strconv.Quote`, which renders the verb `%q` of a string. -/
def Quote (env : GoEnv) (s : GoString) : GoString :=
  str "\"" ++ quoteBody env 0 s ++ str "\""

/-- The decimal digits of a natural number, most significant first ("0" for zero). -/
def decDigits (n : Nat) : List Nat :=
  if n = 0 then [0] else (Nat.digits 10 n).reverse

/-- The number a list of decimal digits denotes, most significant digit first. -/
def decValue (ds : List Nat) : Nat := ds.foldl (fun acc d => acc * 10 + d) 0

/-- The ASCII character of a decimal digit. -/
def digitByte (d : Nat) : UInt8 := UInt8.ofNat (48 + d)

/-- The decimal rendering of a natural number. -/
def formatNat (n : Nat) : GoString := (decDigits n).map digitByte

/-- The function `strconv.FormatInt(i, 10)`: the decimal rendering of an integer. -/
def FormatInt (i : Int) : GoString :=
  if i < 0 then str "-" ++ formatNat i.natAbs else formatNat i.natAbs

/-! ## The scanner behind `fmt.Sscanf(list, "%d %d", &num, &size)` -/

/-- The constant `hugeWid` of `fmt/scan.go`: the scanner reports end of input
once this many runes have been consumed. -/
def hugeWid : Nat := 1073741824

/-- The scan state `ss` of `fmt/scan.go`, as far as this format uses it: the
runes not yet consumed and the number of runes consumed (`count`). -/
structure ss where
  rs : List Nat
  count : Nat
deriving DecidableEq, Repr

/-- The error `io.EOF`. -/
def ioEOF : GoError := GoError.plain (str "EOF")

/-- The panic raised by `ss.errorString`, returned by `Sscanf` as its error. -/
def errorString (msg : GoString) : GoError := GoError.plain msg

/-- The function `isSpace` of `fmt/scan.go` (its table `space`). -/
def isSpace (r : Nat) : Bool :=
  (0x09 ≤ r ∧ r ≤ 0x0d) ∨ r = 0x20 ∨ r = 0x85 ∨ r = 0xa0 ∨ r = 0x1680
    ∨ (0x2000 ≤ r ∧ r ≤ 0x200a) ∨ r = 0x2028 ∨ r = 0x2029 ∨ r = 0x202f
    ∨ r = 0x205f ∨ r = 0x3000

/-- Membership in `decimalDigits`, the digits `"0123456789"`. -/
def isDigit (r : Nat) : Bool := 48 ≤ r ∧ r ≤ 57

/-- Membership in `sign`, the characters `"+-"`. -/
def isSign (r : Nat) : Bool := r = 43 ∨ r = 45

/-- The method `ss.getRune`: the next rune, or `none` at end of input (also
when `count` has reached the limit). -/
def ss.getRune (s : ss) : Option Nat × ss :=
  if hugeWid ≤ s.count then (none, s)
  else
    match s.rs with
    | [] => (none, s)
    | r :: rest => (some r, { rs := rest, count := s.count + 1 })

/-- The method `ss.SkipSpace` with `nlIsSpace = false`: passes over blanks, a
carriage return before a newline included, fails on a newline, and puts the
first other rune back. -/
def SkipSpace : List Nat → Nat → Except GoError ss
  | [], count => Except.ok { rs := [], count := count }
  | r :: rest, count =>
    if hugeWid ≤ count then Except.ok { rs := r :: rest, count := count }
    else if r = 13 ∧ ((ss.getRune { rs := rest, count := count + 1 }).1 = some 10) then
      SkipSpace rest (count + 1)
    else if r = 10 then Except.error (errorString (str "unexpected newline"))
    else if ¬ isSpace r then Except.ok { rs := r :: rest, count := count }
    else SkipSpace rest (count + 1)

/-- The method `ss.notEOF`: fails with `io.EOF` when no rune is left. -/
def ss.notEOF (s : ss) : Except GoError Unit :=
  match (ss.getRune s).1 with
  | none => Except.error ioEOF
  | some _ => Except.ok ()

/-- The method `ss.accept` for a character class: consumes the next rune into the
token buffer when it belongs to the class, else leaves it unread. -/
def ss.accept (ok : Nat → Bool) (s : ss) (buf : GoString) : Bool × GoString × ss :=
  match ss.getRune s with
  | (none, _) => (false, buf, s)
  | (some r, s1) => if ok r then (true, buf ++ EncodeRune r, s1) else (false, buf, s)

/-- The loop `for s.accept(digits) {}` of `ss.scanNumber`. -/
def acceptDigits : List Nat → Nat → GoString → GoString × ss
  | [], count, buf => (buf, { rs := [], count := count })
  | r :: rest, count, buf =>
    if hugeWid ≤ count then (buf, { rs := r :: rest, count := count })
    else if isDigit r then acceptDigits rest (count + 1) (buf ++ EncodeRune r)
    else (buf, { rs := r :: rest, count := count })

/-- The error of `strconv.ParseInt` (a `*NumError` with `Func = "ParseInt"`). -/
def numError (env : GoEnv) (tok cause : GoString) : GoError :=
  GoError.plain (str "strconv.ParseInt: parsing " ++ Quote env tok ++ str ": " ++ cause)

/-- Whether a byte is an ASCII decimal digit. -/
def isDigitByte (b : UInt8) : Bool := 48 ≤ b.toNat ∧ b.toNat ≤ 57

/-- The function `strconv.ParseInt(tok, 10, 64)`. -/
def ParseInt (env : GoEnv) (tok : GoString) : Except GoError Int :=
  let neg : Bool := tok.head? = some 45
  let body : GoString := if tok.head? = some 43 ∨ tok.head? = some 45 then tok.tail else tok
  if body = [] ∨ ¬ body.all isDigitByte then
    Except.error (numError env tok (str "invalid syntax"))
  else
    let un : Nat := body.foldl (fun acc b => acc * 10 + (b.toNat - 48)) 0
    if ¬ neg ∧ 2 ^ 63 ≤ un then Except.error (numError env tok (str "value out of range"))
    else if neg ∧ 2 ^ 63 < un then Except.error (numError env tok (str "value out of range"))
    else Except.ok (if neg then - (un : Int) else (un : Int))

/-- The expression `(i << (64 - n)) >> (64 - n)` on an `int64`: the low `n` bits
of `i`, sign-extended. -/
def signExtend (n : Nat) (i : Int) : Int :=
  (i + 2 ^ (n - 1)) % 2 ^ n - 2 ^ (n - 1)

/-- The method `ss.scanInt` for the verb `%d`. -/
def scanInt (env : GoEnv) (bitSize : Nat) (s : ss) : Except GoError (Int × ss) :=
  match SkipSpace s.rs s.count with
  | Except.error e => Except.error e
  | Except.ok s1 =>
    match ss.notEOF s1 with
    | Except.error e => Except.error e
    | Except.ok _ =>
      match ss.accept isSign s1 [] with
      | (_, buf, s2) =>
        match ss.notEOF s2 with
        | Except.error e => Except.error e
        | Except.ok _ =>
          match ss.accept isDigit s2 buf with
          | (false, _, _) => Except.error (errorString (str "expected integer"))
          | (true, buf1, s3) =>
            match acceptDigits s3.rs s3.count buf1 with
            | (tok, s4) =>
              match ParseInt env tok with
              | Except.error e => Except.error e
              | Except.ok i =>
                if signExtend bitSize i ≠ i then
                  Except.error (errorString (str "integer overflow on token " ++ tok))
                else Except.ok (i, s4)

/-- The loop of `ss.advance` that passes over blanks other than a newline. -/
def skipBlanks : List Nat → Nat → ss
  | [], count => { rs := [], count := count }
  | r :: rest, count =>
    if hugeWid ≤ count then { rs := r :: rest, count := count }
    else if isSpace r ∧ r ≠ 10 then skipBlanks rest (count + 1)
    else { rs := r :: rest, count := count }

/-- The method `ss.advance` on the blank between the two verbs: the input
must be at its end or continue with a blank that is not a newline; further
blanks are passed over. -/
def advanceSpace (s : ss) : Except GoError ss :=
  match ss.getRune s with
  | (none, _) => Except.ok s
  | (some r, s1) =>
    if ¬ isSpace r then
      Except.error (errorString (str "expected space in input to match format"))
    else if r = 10 then
      Except.error (errorString (str "newline in input does not match format"))
    else Except.ok (skipBlanks s1.rs s1.count)

/-- The call `fmt.Sscanf(list, "%d %d", &num, &size)` with `num` an `int` and
`size` an `int64`, both zero before the call: the values of `num` and `size`
afterwards and the error returned.  An operand scanned before a later
failure keeps its value. -/
def Sscanf (env : GoEnv) (list : GoString) : Int × Int × Option GoError :=
  match SkipSpace (runes list) 0 with
  | Except.error e => (0, 0, some e)
  | Except.ok s0 =>
    match scanInt env env.intSize.bits s0 with
    | Except.error e => (0, 0, some e)
    | Except.ok (num, s1) =>
      match advanceSpace s1 with
      | Except.error e => (num, 0, some e)
      | Except.ok s2 =>
        match SkipSpace s2.rs s2.count with
        | Except.error e => (num, 0, some e)
        | Except.ok s3 =>
          match scanInt env 64 s3 with
          | Except.error e => (num, 0, some e)
          | Except.ok (size, _) => (num, size, none)

/-! ## The transport -/

/-- One operation performed on the connection. -/
inductive Event where
  | write (line : GoString)
  | read
  | close
  | body
deriving DecidableEq, Repr

/-- The behaviour of the connection as seen through `textproto`: reading a
line, writing a line, closing, and parsing a dot-terminated mail body
(`mail.ReadMessage` over `DotReader`, only its failure is kept).  Each takes
the state of the connection and gives the next one. -/
structure Transport (σ : Type) where
  ReadLine : σ → (GoString × Option GoError) × σ
  PrintfLine : GoString → σ → Option GoError × σ
  Close : σ → Option GoError × σ
  ReadMessage : σ → Option GoError × σ

/-! ## The client (`client.go`) -/

/-- The struct `Client`: the connection (`conn`, `Reader` and `Writer` are views
of the one connection state), the terminal error `err`, and two pieces of
bookkeeping: the address a `*Client` pointer holds, and the log of the
operations performed on the connection so far. -/
structure Client (σ : Type) where
  conn : σ
  err : Option GoError
  addr : Nat
  log : List Event
deriving DecidableEq

/-- The call `c.Reader.ReadLine()`. -/
def Client.ReadLine {σ : Type} (tr : Transport σ) (c : Client σ) :
    (GoString × Option GoError) × Client σ :=
  ((tr.ReadLine c.conn).1, { c with conn := (tr.ReadLine c.conn).2, log := c.log ++ [Event.read] })

/-- The call `c.Writer.PrintfLine("%s", s)`. -/
def Client.PrintfLine {σ : Type} (tr : Transport σ) (s : GoString) (c : Client σ) :
    Option GoError × Client σ :=
  ((tr.PrintfLine s c.conn).1,
    { c with conn := (tr.PrintfLine s c.conn).2, log := c.log ++ [Event.write s] })

/-- The call `c.conn.Close()`. -/
def Client.connClose {σ : Type} (tr : Transport σ) (c : Client σ) : Option GoError × Client σ :=
  ((tr.Close c.conn).1, { c with conn := (tr.Close c.conn).2, log := c.log ++ [Event.close] })

/-- The call `mail.ReadMessage(c.Reader.DotReader())`. -/
def Client.ReadMessage {σ : Type} (tr : Transport σ) (c : Client σ) :
    Option GoError × Client σ :=
  ((tr.ReadMessage c.conn).1,
    { c with conn := (tr.ReadMessage c.conn).2, log := c.log ++ [Event.body] })

/-- The function `parseResponseLine` of `client.go`, over any line reader with state `ρ`. -/
def parseResponseLine {ρ : Type} (env : GoEnv)
    (ReadLine : ρ → (GoString × Option GoError) × ρ) (r : ρ) :
    (GoString × Option GoError) × ρ :=
  match ReadLine r with
  | ((message, some err), r1) =>
    (([], some (GoError.plain (str "read line: " ++ err.Error))), r1)
  | ((message, none), r1) =>
    if message.length < 1 then (([], some (GoError.plain (str "empty message"))), r1)
    else if message.length < 3 then
      (([], some (GoError.plain (str "line too short: " ++ Quote env message))), r1)
    else if message.take 3 = str "+OK" then
      if message.length = 3 then (([], none), r1) else ((message.drop 4, none), r1)
    else if message.length > 3 ∧ message.take 4 = str "-ERR" then
      if message.length = 4 then (([], some (GoError.plain (str "error"))), r1)
      else (([], some (GoError.plain (message.drop 5))), r1)
    else (([], some (GoError.plain (str "unexpected response: " ++ message))), r1)

/-- An operand of the variadic `args ...interface{}` of `command`: the package
passes strings (`Login`) and `int`s (message indices). -/
inductive Arg where
  | string (s : GoString)
  | int (i : Int)
deriving DecidableEq, Repr

/-- The verb `%v` of one operand. -/
def Arg.format : Arg → GoString
  | Arg.string s => s
  | Arg.int i => FormatInt i

/-- The function `fmt.Sprintln`: the operands separated by single spaces, then a newline. -/
def Sprintln (args : List Arg) : GoString :=
  ((args.map Arg.format).intersperse (str " ")).flatten ++ str "\n"

/-- The method `Client.command` of `client.go`. -/
def Client.command {σ : Type} (env : GoEnv) (tr : Transport σ) (c : Client σ)
    (cmd : GoString) (args : List Arg) : (GoString × Option GoError) × Client σ :=
  match c.err with
  | some err => (([], some err), c)
  | none =>
    let s : GoString :=
      if args.length > 0 then
        (cmd ++ str " " ++ Sprintln args).take ((cmd ++ str " " ++ Sprintln args).length - 1)
      else cmd
    match Client.PrintfLine tr s c with
    | (some err, c1) => (([], some (GoError.plain (cmd ++ str ": " ++ err.Error))), c1)
    | (none, c1) =>
      match parseResponseLine env (Client.ReadLine tr) c1 with
      | ((resp, some err), c2) =>
        ((resp, some (GoError.plain (cmd ++ str ": " ++ err.Error))), c2)
      | ((resp, none), c2) => ((resp, none), c2)

/-- The constant `CommandDelete`. -/
def CommandDelete : GoString := str "DELE"
/-- The constant `CommandList`. -/
def CommandList : GoString := str "LIST"
/-- The constant `CommandNoop`. -/
def CommandNoop : GoString := str "NOOP"
/-- The constant `CommandPassword`. -/
def CommandPassword : GoString := str "PASS"
/-- The constant `CommandQuit`. -/
def CommandQuit : GoString := str "QUIT"
/-- The constant `CommandRetrieve`. -/
def CommandRetrieve : GoString := str "RETR"
/-- The constant `CommandUser`. -/
def CommandUser : GoString := str "USER"

/-- The function `NewClient` of `client.go` on a connection in state `conn`, the new
`Client` being allocated at `addr`; on failure the pointer returned is nil
(`none`), and the state of the connection after the one read is given
alongside. -/
def NewClient {σ : Type} (env : GoEnv) (tr : Transport σ) (conn : σ) (addr : Nat) :
    (Option (Client σ) × Option GoError) × Client σ :=
  match parseResponseLine env (Client.ReadLine tr)
      { conn := conn, err := none, addr := addr, log := [] } with
  | ((_, some err), c) => ((none, some (newError (str "new") err).toError), c)
  | ((_, none), c) => ((some c, none), c)

/-- The method `Client.Quit` of `client.go`. -/
def Client.Quit {σ : Type} (env : GoEnv) (tr : Transport σ) (c : Client σ) :
    Option GoError × Client σ :=
  if c.err ≠ some ErrAlreadyQuit then
    match Client.command env tr c CommandQuit [] with
    | ((_, err), c1) => (err, { c1 with err := some ErrAlreadyQuit })
  else (none, { c with err := some ErrAlreadyQuit })

/-- The method `Client.Close` of `client.go`. -/
def Client.Close {σ : Type} (env : GoEnv) (tr : Transport σ) (c : Client σ) :
    Option GoError × Client σ :=
  if c.err = some ErrWriteAfterClose then (none, c)
  else
    match Client.Quit env tr c with
    | (some err, c1) => (some err, (Client.connClose tr c1).2)
    | (none, c1) => Client.connClose tr c1

/-- The method `Client.Login` of `client.go`. -/
def Client.Login {σ : Type} (env : GoEnv) (tr : Transport σ) (c : Client σ)
    (user pass : GoString) : Option GoError × Client σ :=
  match Client.command env tr c CommandUser [Arg.string user] with
  | ((_, some err), c1) => (some err, c1)
  | ((_, none), c1) =>
    match Client.command env tr c1 CommandPassword [Arg.string pass] with
    | ((_, err), c2) => (err, c2)

/-! ## Messages (`message.go`) -/

/-- The struct `Message`: the client it belongs to (the pointer `c`, an
address), the index `i` and the size `n`. -/
structure Message where
  c : Nat
  i : Int
  n : Int
deriving DecidableEq, Repr

/-- The function `parseListResponse` of `message.go`. -/
def parseListResponse (env : GoEnv) (list : GoString) : Int × Int × Option GoError :=
  match Sscanf env list with
  | (num, size, some err) =>
    (num, size, some (GoError.plain (str "parse " ++ Quote env list ++ str ": " ++ err.Error)))
  | (num, size, none) => (num, size, none)

/-- The method `Message.Index`. -/
def Message.Index (m : Message) : Int := m.i

/-- The method `Message.GetSize` of `message.go`; `c` is the client `m.c` points to. -/
def Message.GetSize {σ : Type} (env : GoEnv) (tr : Transport σ) (m : Message) (c : Client σ) :
    (Int × Option GoError) × Message × Client σ :=
  if m.n > 0 then ((m.n, none), m, c)
  else
    match Client.command env tr c CommandList [Arg.int m.i] with
    | ((_, some err), c1) =>
      ((0, some (newError (str "list") err).toError), { m with n := 0 }, c1)
    | ((line, none), c1) =>
      match parseListResponse env line with
      | (_, n, some err) =>
        ((n, some (newError (str "list") err).toError), { m with n := 0 }, c1)
      | (_, n, none) => ((n, none), { m with n := n }, c1)

/-- The method `Message.Retrieve` of `message.go`; the parsed mail is not kept, only
the response line and the error. -/
def Message.Retrieve {σ : Type} (env : GoEnv) (tr : Transport σ) (m : Message) (c : Client σ) :
    (GoString × Option GoError) × Client σ :=
  match Client.command env tr c CommandRetrieve [Arg.int m.i] with
  | ((line, some err), c1) => ((line, some err), c1)
  | ((line, none), c1) =>
    match Client.ReadMessage tr c1 with
    | (some err, c2) => ((line, some (newError (str "retrieve") err).toError), c2)
    | (none, c2) => ((line, none), c2)

/-- The method `Message.Delete` of `message.go`. -/
def Message.Delete {σ : Type} (env : GoEnv) (tr : Transport σ) (m : Message) (c : Client σ) :
    (GoString × Option GoError) × Client σ :=
  Client.command env tr c CommandDelete [Arg.int m.i]

/-- The loop `for { ... }` of `Client.GetMessages`: at most `fuel` iterations, `none`
when they do not reach a return.  A nil list is `none`. -/
def Client.GetMessages.loop {σ : Type} (env : GoEnv) (tr : Transport σ) :
    Nat → Client σ → List Message →
      Option ((Option (List Message) × Option GoError) × Client σ)
  | 0, _, _ => none
  | fuel + 1, c, list =>
    match Client.ReadLine tr c with
    | ((_, some err), c1) => some ((none, some (newError (str "messages") err).toError), c1)
    | ((s, none), c1) =>
      if s = str "." then some ((some list, none), c1)
      else
        match parseListResponse env s with
        | (_, _, some err) => some ((none, some (newError (str "messages") err).toError), c1)
        | (i, n, none) =>
          Client.GetMessages.loop env tr fuel c1 (list ++ [{ c := c.addr, i := i, n := n }])

/-- The method `Client.GetMessages` of `client.go`, its loop run for at most `fuel`
iterations. -/
def Client.GetMessages {σ : Type} (env : GoEnv) (tr : Transport σ) (fuel : Nat) (c : Client σ) :
    Option ((Option (List Message) × Option GoError) × Client σ) :=
  match Client.command env tr c CommandList [] with
  | ((_, some err), c1) => some ((none, some err), c1)
  | ((_, none), c1) => Client.GetMessages.loop env tr fuel c1 []

/-- The method `Client.NoOperation` of `client.go`. -/
def Client.NoOperation {σ : Type} (env : GoEnv) (tr : Transport σ) (c : Client σ) :
    (GoString × Option GoError) × Client σ :=
  Client.command env tr c CommandNoop []

/-! ## Sequences of calls on one client -/

/-- One call a caller can make on a client or on one of its message handles. -/
inductive Call where
  | command (cmd : GoString) (args : List Arg)
  | quit
  | close
  | login (user pass : GoString)
  | getMessages (fuel : Nat)
  | noOperation
  | getSize (m : Message)
  | retrieve (m : Message)
  | delete (m : Message)

/-- The client after one call; `none` when `GetMessages` does not return within its
fuel. -/
def Client.call {σ : Type} (env : GoEnv) (tr : Transport σ) (c : Client σ) :
    Call → Option (Client σ)
  | Call.command cmd args => some (Client.command env tr c cmd args).2
  | Call.quit => some (Client.Quit env tr c).2
  | Call.close => some (Client.Close env tr c).2
  | Call.login user pass => some (Client.Login env tr c user pass).2
  | Call.getMessages fuel => (Client.GetMessages env tr fuel c).map Prod.snd
  | Call.noOperation => some (Client.NoOperation env tr c).2
  | Call.getSize m => some (Message.GetSize env tr m c).2.2
  | Call.retrieve m => some (Message.Retrieve env tr m c).2
  | Call.delete m => some (Message.Delete env tr m c).2

/-- The client after a sequence of calls, made one after the other. -/
def Client.calls {σ : Type} (env : GoEnv) (tr : Transport σ) :
    List Call → Client σ → Option (Client σ)
  | [], c => some c
  | k :: ks, c =>
    match Client.call env tr c k with
    | none => none
    | some c1 => Client.calls env tr ks c1

/-! ## Listing blocks -/

/-- The listing line `<index> <size>` of one message: both numbers in decimal, one
space between them. -/
def listLine (p : Int × Int) : GoString := FormatInt p.1 ++ str " " ++ FormatInt p.2

/-- Whether the connection, from state `s`, delivers exactly the given lines to
the next reads, all without error; if so, the state after the last of them. -/
def delivers {σ : Type} (tr : Transport σ) : σ → List GoString → Option σ
  | s, [] => some s
  | s, l :: ls =>
    match tr.ReadLine s with
    | ((l1, none), s1) => if l1 = l then delivers tr s1 ls else none
    | ((_, some _), _) => none

/-! ## Notions used to state properties of `command` and of handles -/

/-- The line `command` builds from the command name and its operands: the value
of `s` at the call of `PrintfLine`. -/
def commandLine (cmd : GoString) (args : List Arg) : GoString :=
  if args.length > 0 then
    (cmd ++ str " " ++ Sprintln args).take ((cmd ++ str " " ++ Sprintln args).length - 1)
  else cmd

/-- The handle after a sequence of `GetSize` calls on it, the `k`-th call finding
the client in the `k`-th state of the list (anything may have happened to
the client in between). -/
def Message.GetSizeSeq {σ : Type} (env : GoEnv) (tr : Transport σ) :
    List (Client σ) → Message → Message
  | [], m => m
  | c :: cs, m => Message.GetSizeSeq env tr cs (Message.GetSize env tr m c).2.1

/-! ## Shapes of a listing line, to state what `parseListResponse` accepts -/

/-- A blank: a space character other than the newline. -/
def isBlank (r : Nat) : Bool := isSpace r && r != 10

/-- The runes left after the leading blanks. -/
def dropBlanks (rs : List Nat) : List Nat := rs.dropWhile isBlank

/-- Whether the runes start with a decimal integer (an optional sign, then at least
one digit); if so, the runes after its last digit. -/
def takeInt : List Nat → Option (List Nat)
  | [] => none
  | r :: t =>
    if isSign r then
      match t with
      | [] => none
      | d :: t2 => if isDigit d then some (t2.dropWhile isDigit) else none
    else if isDigit r then some (t.dropWhile isDigit)
    else none

/-- The number a run of digit characters denotes. -/
def digitsValue (ds : List Nat) : Nat := decValue (ds.map (fun d => d - 48))

/-- The value of the decimal integer the runes start with (an optional sign and
the digits that follow it). -/
def leadingValue : List Nat → Int
  | [] => 0
  | r :: t =>
    if r = 45 then - ((digitsValue (t.takeWhile isDigit) : Nat) : Int)
    else if r = 43 then ((digitsValue (t.takeWhile isDigit) : Nat) : Int)
    else ((digitsValue ((r :: t).takeWhile isDigit) : Nat) : Int)

/-- The state of a scripted connection: the lines the server will still send,
and whether the connection has been closed. -/
structure Scripted where
  incoming : List GoString
  closed : Bool
deriving DecidableEq, Repr

/-- A scripted line reader: delivers the pending lines in order, then `io.EOF`. -/
def Scripted.ReadLine (s : Scripted) : (GoString × Option GoError) × Scripted :=
  match s.incoming with
  | [] => (([], some ioEOF), s)
  | l :: rest => ((l, none), { s with incoming := rest })

/-- The scripted connection as a transport: writes succeed, the first close
succeeds and a later one fails as `net.Conn` does. -/
def scripted : Transport Scripted where
  ReadLine := Scripted.ReadLine
  PrintfLine := fun _ s => (none, s)
  Close := fun s =>
    (if s.closed then some (GoError.plain (str "use of closed network connection")) else none,
      { s with closed := true })
  ReadMessage := fun s => (none, s)

/-- The scripted connection with a broken write side: every write fails. -/
def brokenPipe : Transport Scripted :=
  { scripted with PrintfLine := fun _ s => (some (GoError.plain (str "broken pipe")), s) }

/-- A Go runtime for concrete runs: 64-bit `int`, every rune above U+00FF printable. -/
def env64 : GoEnv := { intSize := IntSize.bits64, isPrintTable := fun _ => true }

/-! ## Theorems -/

theorem asError_newError_plain (context : GoString) (e : GoError) (h : asError e = none) :
    newError context e = { Context := context, Err := e } := by
  simp [newError, h]

theorem newError_toError (outer : GoString) (e : Error) :
    newError outer e.toError = { Context := e.Context ++ str ": " ++ outer, Err := e.Err } := by
  simp [newError, Error.toError, asError]

/-- C2 (as stated, refuted): with contexts "outer" and "inner" and root cause
"C", the doubly wrapped error does not render as "pop3: outer: inner: C". -/
theorem newError_outer_first_counterexample :
    ¬ ((newError (str "outer")
          (newError (str "inner") (GoError.plain (str "C"))).toError).Error
        = str "pop3: outer: inner: C") := by
  decide

/-- C2 (amended): wrapping `newError inner C` again with `outer` gives one flat
structured error whose root cause is still `C` (not a nested `Error`) and
whose context chain reads innermost first: it renders as
"pop3: inner: outer: C". -/
theorem newError_nested_flat (outer inner : GoString) (C : GoError)
    (hC : asError C = none) :
    newError outer (newError inner C).toError
        = { Context := inner ++ str ": " ++ outer, Err := C }
      ∧ asError (newError outer (newError inner C).toError).Err = none
      ∧ (newError outer (newError inner C).toError).Error
        = str "pop3: " ++ (inner ++ str ": " ++ outer) ++ str ": " ++ C.Error := by
  have h1 : newError inner C = { Context := inner, Err := C } :=
    asError_newError_plain inner C hC
  have h2 : newError outer (newError inner C).toError
      = { Context := inner ++ str ": " ++ outer, Err := C } := by
    rw [newError_toError, h1]
  refine ⟨h2, ?_, ?_⟩
  · rw [h2]; exact hC
  · rw [h2]; rfl

theorem newError_nested_flat_witness :
    asError (GoError.plain (str "C")) = none
      ∧ (newError (str "outer") (newError (str "inner") (GoError.plain (str "C"))).toError).Error
        = str "pop3: inner: outer: C" :=
  ⟨rfl, by
    have h := (newError_nested_flat (str "outer") (str "inner") (GoError.plain (str "C"))
      rfl).2.2
    rw [h]; decide⟩

/-- C3: for contexts `a`, `b` and a non-structured cause `e`,
`newError(a, newError(b, e)).Error()` is
`"pop3: " + b + ": " + a + ": " + e.Error()`. -/
theorem newError_nested_render (a b : GoString) (e : GoError) (he : asError e = none) :
    (newError a (newError b e).toError).Error
      = str "pop3: " ++ b ++ str ": " ++ a ++ str ": " ++ e.Error := by
  rw [asError_newError_plain b e he, newError_toError]
  simp [Error.Error, List.append_assoc]

theorem newError_nested_render_witness :
    asError (GoError.plain (str "error")) = none
      ∧ (newError (str "level 1")
            (newError (str "level 2") (GoError.plain (str "error"))).toError).Error
          = str "pop3: level 2: level 1: error" :=
  ⟨rfl, by
    have h := newError_nested_render (str "level 1") (str "level 2")
      (GoError.plain (str "error")) rfl
    rw [h]; decide⟩

/-! ### Response classification -/

theorem str_ok : str "+OK" = [43, 79, 75] := by decide

theorem str_ok_sp : str "+OK " = [43, 79, 75, 32] := by decide

theorem str_err : str "-ERR" = [45, 69, 82, 82] := by decide

theorem str_err_sp : str "-ERR " = [45, 69, 82, 82, 32] := by decide

/-- C4: on a reader whose next line is "+OK " followed by `p`, `parseResponseLine`
returns exactly `p` and no error; on the line "+OK" alone it returns the
empty string and no error. -/
theorem parseResponseLine_success {ρ : Type} (env : GoEnv)
    (ReadLine : ρ → (GoString × Option GoError) × ρ) (r r1 : ρ) (p : GoString) :
    (ReadLine r = ((str "+OK " ++ p, none), r1) →
        parseResponseLine env ReadLine r = ((p, none), r1))
      ∧ (ReadLine r = ((str "+OK", none), r1) →
        parseResponseLine env ReadLine r = (([], none), r1)) := by
  constructor
  · intro h
    simp [parseResponseLine, h, str_ok_sp, str_ok]
  · intro h
    simp [parseResponseLine, h, str_ok]

theorem parseResponseLine_success_witness :
    parseResponseLine env64 Scripted.ReadLine
          { incoming := [str "+OK " ++ str "2 messages"], closed := false }
        = ((str "2 messages", none), { incoming := [], closed := false })
      ∧ parseResponseLine env64 Scripted.ReadLine { incoming := [str "+OK"], closed := false }
        = (([], none), { incoming := [], closed := false }) :=
  ⟨(parseResponseLine_success env64 Scripted.ReadLine
      { incoming := [str "+OK " ++ str "2 messages"], closed := false }
      { incoming := [], closed := false } (str "2 messages")).1 rfl,
   (parseResponseLine_success env64 Scripted.ReadLine
      { incoming := [str "+OK"], closed := false }
      { incoming := [], closed := false } []).2 rfl⟩

/-- C5: on the line "-ERR " followed by `m`, `parseResponseLine` fails with an
error whose text is exactly `m` and an empty payload; on the bare line
"-ERR" it fails with the text "error". -/
theorem parseResponseLine_failure {ρ : Type} (env : GoEnv)
    (ReadLine : ρ → (GoString × Option GoError) × ρ) (r r1 : ρ) (m : GoString) :
    (ReadLine r = ((str "-ERR " ++ m, none), r1) →
        ∃ e, parseResponseLine env ReadLine r = (([], some e), r1) ∧ e.Error = m)
      ∧ (ReadLine r = ((str "-ERR", none), r1) →
        ∃ e, parseResponseLine env ReadLine r = (([], some e), r1) ∧ e.Error = str "error") := by
  constructor
  · intro h
    refine ⟨GoError.plain m, ?_, rfl⟩
    simp [parseResponseLine, h, str_err_sp, str_err, str_ok]
  · intro h
    refine ⟨GoError.plain (str "error"), ?_, rfl⟩
    simp [parseResponseLine, h, str_err, str_ok]

theorem parseResponseLine_failure_witness :
    (∃ e, parseResponseLine env64 Scripted.ReadLine
            { incoming := [str "-ERR " ++ str "no such message"], closed := false }
          = (([], some e), { incoming := [], closed := false })
        ∧ e.Error = str "no such message")
      ∧ (∃ e, parseResponseLine env64 Scripted.ReadLine
            { incoming := [str "-ERR"], closed := false }
          = (([], some e), { incoming := [], closed := false })
        ∧ e.Error = str "error") :=
  ⟨(parseResponseLine_failure env64 Scripted.ReadLine
      { incoming := [str "-ERR " ++ str "no such message"], closed := false }
      { incoming := [], closed := false } (str "no such message")).1 rfl,
   (parseResponseLine_failure env64 Scripted.ReadLine
      { incoming := [str "-ERR"], closed := false }
      { incoming := [], closed := false } []).2 rfl⟩

/-- C6: `parseResponseLine` fails with "empty message" on the empty line, and on
every line of length 1 or 2 with "line too short: " followed by the quoted
raw line; the empty line is never reported as "line too short". -/
theorem parseResponseLine_short {ρ : Type} (env : GoEnv)
    (ReadLine : ρ → (GoString × Option GoError) × ρ) (r r1 : ρ) (line : GoString)
    (h : ReadLine r = ((line, none), r1)) :
    (line = [] →
        parseResponseLine env ReadLine r
            = (([], some (GoError.plain (str "empty message"))), r1)
          ∧ ∀ q e, parseResponseLine env ReadLine r = (([], some e), r1) →
              e.Error ≠ str "line too short: " ++ q)
      ∧ (1 ≤ line.length ∧ line.length ≤ 2 →
        parseResponseLine env ReadLine r
          = (([], some (GoError.plain (str "line too short: " ++ Quote env line))), r1)) := by
  constructor
  · intro hl
    subst hl
    have hres : parseResponseLine env ReadLine r
        = (([], some (GoError.plain (str "empty message"))), r1) := by
      simp [parseResponseLine, h]
    refine ⟨hres, ?_⟩
    intro q e he
    rw [hres] at he
    have : e = GoError.plain (str "empty message") := by
      simp only [Prod.mk.injEq, Option.some.injEq, true_and, and_true] at he
      exact he.symm
    subst this
    have e1 : str "empty message" = 101 :: (str "empty message").tail := by decide
    have e2 : str "line too short: " = 108 :: (str "line too short: ").tail := by decide
    intro hc
    simp only [GoError.Error] at hc
    rw [e1, e2] at hc
    simp at hc
  · intro hl
    have h1 : ¬ line.length < 1 := by omega
    have h3 : line.length < 3 := by omega
    simp [parseResponseLine, h, h1, h3]

theorem parseResponseLine_short_witness :
    parseResponseLine env64 Scripted.ReadLine { incoming := [[]], closed := false }
        = (([], some (GoError.plain (str "empty message"))), { incoming := [], closed := false })
      ∧ parseResponseLine env64 Scripted.ReadLine { incoming := [str "+O"], closed := false }
        = (([], some (GoError.plain (str "line too short: \"+O\""))),
            { incoming := [], closed := false }) :=
  ⟨((parseResponseLine_short env64 Scripted.ReadLine { incoming := [[]], closed := false }
        { incoming := [], closed := false } [] rfl).1 rfl).1,
   by
    have h := (parseResponseLine_short env64 Scripted.ReadLine
        { incoming := [str "+O"], closed := false }
        { incoming := [], closed := false } (str "+O") rfl).2 (by decide)
    rw [h]; decide⟩

/-! ### Session termination -/

theorem command_terminal {σ : Type} (env : GoEnv) (tr : Transport σ) (c : Client σ)
    (e : GoError) (h : c.err = some e) (cmd : GoString) (args : List Arg) :
    Client.command env tr c cmd args = (([], some e), c) := by
  simp [Client.command, h]

theorem Quit_err {σ : Type} (env : GoEnv) (tr : Transport σ) (c : Client σ) :
    (Client.Quit env tr c).2.err = some ErrAlreadyQuit := by
  unfold Client.Quit
  split <;> rfl

theorem Quit_after_quit {σ : Type} (env : GoEnv) (tr : Transport σ) (c : Client σ)
    (h : c.err = some ErrAlreadyQuit) : Client.Quit env tr c = (none, c) := by
  cases c with
  | mk conn err addr log =>
    simp only at h
    subst h
    simp [Client.Quit]

theorem Close_after_quit {σ : Type} (env : GoEnv) (tr : Transport σ) (c : Client σ)
    (h : c.err = some ErrAlreadyQuit) :
    Client.Close env tr c = Client.connClose tr c := by
  have hne : c.err ≠ some ErrWriteAfterClose := by
    rw [h]; decide
  simp [Client.Close, hne, Quit_after_quit env tr c h]

theorem call_after_quit {σ : Type} (env : GoEnv) (tr : Transport σ) (c : Client σ)
    (h : c.err = some ErrAlreadyQuit) (k : Call) :
    ∃ c1, Client.call env tr c k = some c1 ∧ c1.err = some ErrAlreadyQuit := by
  have hc := command_terminal env tr c ErrAlreadyQuit h
  cases k with
  | command cmd args => exact ⟨_, rfl, by simp [hc, h]⟩
  | quit => exact ⟨_, rfl, Quit_err env tr c⟩
  | close =>
    refine ⟨_, rfl, ?_⟩
    rw [Close_after_quit env tr c h]
    exact h
  | login user pass => exact ⟨_, rfl, by simp [Client.Login, hc, h]⟩
  | getMessages fuel =>
    refine ⟨c, ?_, h⟩
    simp [Client.call, Client.GetMessages, hc]
  | noOperation => exact ⟨_, rfl, by simp [Client.NoOperation, hc, h]⟩
  | getSize m =>
    refine ⟨_, rfl, ?_⟩
    unfold Message.GetSize
    split
    · exact h
    · simp [hc, h]
  | retrieve m => exact ⟨_, rfl, by simp [Message.Retrieve, hc, h]⟩
  | delete m => exact ⟨_, rfl, by simp [Message.Delete, hc, h]⟩

theorem calls_after_quit {σ : Type} (env : GoEnv) (tr : Transport σ) (ks : List Call) :
    ∀ c : Client σ, c.err = some ErrAlreadyQuit →
      ∃ c2, Client.calls env tr ks c = some c2 ∧ c2.err = some ErrAlreadyQuit := by
  induction ks with
  | nil => intro c h; exact ⟨c, rfl, h⟩
  | cons k ks ih =>
    intro c h
    obtain ⟨c1, hk, h1⟩ := call_after_quit env tr c h k
    obtain ⟨c2, hks, h2⟩ := ih c1 h1
    exact ⟨c2, by simp [Client.calls, hk, hks], h2⟩

/-- C7: after `Quit` has been called (whether or not the QUIT command
succeeded), and after any further sequence of calls, every call of `command`
returns the stored error `ErrAlreadyQuit` with an empty response and leaves
the client as it was: nothing is written to or read from the connection. -/
theorem command_after_Quit {σ : Type} (env : GoEnv) (tr : Transport σ) (c : Client σ)
    (ks : List Call) (cmd : GoString) (args : List Arg) :
    ∃ c2, Client.calls env tr ks (Client.Quit env tr c).2 = some c2
      ∧ Client.command env tr c2 cmd args = (([], some ErrAlreadyQuit), c2)
      ∧ (Client.command env tr c2 cmd args).2.log = c2.log
      ∧ (Client.command env tr c2 cmd args).2.conn = c2.conn := by
  obtain ⟨c2, hks, h2⟩ := calls_after_quit env tr ks _ (Quit_err env tr c)
  have hc := command_terminal env tr c2 ErrAlreadyQuit h2 cmd args
  exact ⟨c2, hks, hc, by rw [hc], by rw [hc]⟩

theorem Close_second_call {σ : Type} (env : GoEnv) (tr : Transport σ) (c : Client σ)
    (h : c.err ≠ some ErrWriteAfterClose) :
    Client.Close env tr (Client.Close env tr c).2
      = Client.connClose tr (Client.Close env tr c).2 := by
  apply Close_after_quit
  simp only [Client.Close, h, if_false]
  split
  · next e c1 hq =>
    have := Quit_err env tr c
    rw [hq] at this
    exact this
  · next c1 hq =>
    have := Quit_err env tr c
    rw [hq] at this
    exact this

/-- C1 (failing run): on a client made by `NewClient` over a connection that
greets with "+OK ready" and answers QUIT with "+OK bye", the first `Close`
writes QUIT, reads the answer, closes the connection and returns no error;
the second `Close` closes the connection once more and returns the error of
that second close. -/
theorem Close_twice_closes_again :
    (Client.Close env64 scripted
        (NewClient env64 scripted
          { incoming := [str "+OK ready", str "+OK bye"], closed := false } 0).2).1 = none
      ∧ (Client.Close env64 scripted
        (NewClient env64 scripted
          { incoming := [str "+OK ready", str "+OK bye"], closed := false } 0).2).2.log
        = [Event.read, Event.write (str "QUIT"), Event.read, Event.close]
      ∧ (Client.Close env64 scripted (Client.Close env64 scripted
        (NewClient env64 scripted
          { incoming := [str "+OK ready", str "+OK bye"], closed := false } 0).2).2).1
        = some (GoError.plain (str "use of closed network connection"))
      ∧ (Client.Close env64 scripted (Client.Close env64 scripted
        (NewClient env64 scripted
          { incoming := [str "+OK ready", str "+OK bye"], closed := false } 0).2).2).2.log
        = [Event.read, Event.write (str "QUIT"), Event.read, Event.close, Event.close] := by
  refine ⟨?_, ?_, ?_, ?_⟩ <;> decide

/-! ### Scanning decimal renderings -/

theorem toNat_ofNat_small (n : Nat) (h : n < 256) : (UInt8.ofNat n).toNat = n := by
  simp [UInt8.toNat, UInt8.ofNat, Fin.ofNat, Nat.mod_eq_of_lt h]

theorem digitByte_toNat (d : Nat) (h : d < 10) : (digitByte d).toNat = 48 + d := by
  unfold digitByte
  exact toNat_ofNat_small _ (by omega)

theorem DecodeRune_ascii (b : UInt8) (rest : GoString) (h : b.toNat < 128) :
    DecodeRune (b :: rest) = (b.toNat, 1) := by
  simp [DecodeRune, h]

theorem runesFrom_ascii (l : GoString) (h : ∀ b ∈ l, b.toNat < 128) :
    runesFrom 0 l = l.map UInt8.toNat := by
  induction l with
  | nil => rfl
  | cons b rest ih =>
    have hb := h b (List.mem_cons_self _ _)
    have hr : ∀ b ∈ rest, b.toNat < 128 := fun x hx => h x (List.mem_cons_of_mem _ hx)
    simp [runesFrom, DecodeRune_ascii b rest hb, ih hr]

theorem decDigits_lt (n : Nat) : ∀ d ∈ decDigits n, d < 10 := by
  intro d hd
  unfold decDigits at hd
  split at hd
  · simp at hd; omega
  · rw [List.mem_reverse] at hd
    exact Nat.digits_lt_base (by norm_num) hd

theorem decDigits_ne_nil (n : Nat) : decDigits n ≠ [] := by
  unfold decDigits
  split
  · simp
  · next h => exact Nat.digits_ne_nil_iff_ne_zero.mpr h |> fun h2 => by simpa using h2

theorem decDigits_value (n : Nat) : decValue (decDigits n) = n := by
  unfold decValue decDigits
  split
  · next h => simp [h]
  · rw [List.foldl_reverse]
    have := Nat.ofDigits_digits 10 n
    rw [Nat.ofDigits_eq_foldr] at this
    simpa [mul_comm, add_comm] using this

theorem decDigits_length (n : Nat) (k : Nat) (hk : 0 < k) (h : n < 10 ^ k) :
    (decDigits n).length ≤ k := by
  unfold decDigits
  split
  · simp; omega
  · next hn =>
    rw [List.length_reverse]
    by_contra hlen
    have h1 : 10 ^ (k + 1) ≤ 10 ^ (Nat.digits 10 n).length :=
      Nat.pow_le_pow_right (by norm_num) (by omega)
    have h2 := Nat.base_pow_length_digits_le 10 n (by norm_num) hn
    have h3 : 10 ^ (k + 1) = 10 * 10 ^ k := by ring
    omega

theorem isSpace_digit (d : Nat) (h : d < 10) : isSpace (48 + d) = false := by
  simp [isSpace]; omega

theorem isSign_digit (d : Nat) (h : d < 10) : isSign (48 + d) = false := by
  simp [isSign]; omega

theorem isDigit_digit (d : Nat) (h : d < 10) : isDigit (48 + d) = true := by
  simp [isDigit]; omega

theorem EncodeRune_digit (d : Nat) (h : d < 10) : EncodeRune (48 + d) = [digitByte d] := by
  have : 48 + d ≤ 127 := by omega
  simp [EncodeRune, digitByte, this]

theorem SkipSpace_nonspace (r : Nat) (t : List Nat) (count : Nat) (h : isSpace r = false) :
    SkipSpace (r :: t) count = Except.ok { rs := r :: t, count := count } := by
  have h13 : r ≠ 13 := by
    intro h'; subst h'; simp [isSpace] at h
  have h10 : r ≠ 10 := by
    intro h'; subst h'; simp [isSpace] at h
  unfold SkipSpace
  by_cases hc : hugeWid ≤ count
  · simp [hc]
  · simp [hc, h13, h10, h]

theorem acceptDigits_digits (ds : List Nat) (hds : ∀ d ∈ ds, d < 10) (rest : List Nat)
    (hrest : ∀ r ∈ rest.head?, isDigit r = false) :
    ∀ (count : Nat) (buf : GoString), count + ds.length ≤ hugeWid →
      acceptDigits (ds.map (fun d => 48 + d) ++ rest) count buf
        = (buf ++ ds.map digitByte, { rs := rest, count := count + ds.length }) := by
  induction ds with
  | nil =>
    intro count buf _
    cases rest with
    | nil => simp [acceptDigits]
    | cons r t =>
      have hr : isDigit r = false := hrest r (by simp)
      by_cases hc : hugeWid ≤ count
      · simp [acceptDigits, hc]
      · simp [acceptDigits, hc, hr]
  | cons d ds ih =>
    intro count buf hcount
    have hd : d < 10 := hds d (List.mem_cons_self _ _)
    have hds2 : ∀ x ∈ ds, x < 10 := fun x hx => hds x (List.mem_cons_of_mem _ hx)
    have hc : ¬ hugeWid ≤ count := by simp at hcount; omega
    have hstep := ih hds2 (count + 1) (buf ++ [digitByte d]) (by simp at hcount; omega)
    simp only [List.map_cons, List.cons_append, acceptDigits, hc, if_false,
      isDigit_digit d hd, if_true, EncodeRune_digit d hd, List.append_eq]
    rw [hstep]
    simp [Nat.add_assoc, Nat.add_comm 1]
theorem signExtend_fits64 (v : Int) (h1 : -(2 ^ 63) ≤ v) (h2 : v < 2 ^ 63) :
    signExtend 64 v = v := by
  unfold signExtend
  norm_num at h1 h2 ⊢
  omega

theorem signExtend_fits32 (v : Int) (h1 : -(2 ^ 31) ≤ v) (h2 : v < 2 ^ 31) :
    signExtend 32 v = v := by
  unfold signExtend
  norm_num at h1 h2 ⊢
  omega

theorem signExtend_fits (sz : IntSize) (v : Int) (h1 : -(2 ^ (sz.bits - 1)) ≤ v)
    (h2 : v < 2 ^ (sz.bits - 1)) : signExtend sz.bits v = v := by
  cases sz
  · exact signExtend_fits32 v h1 h2
  · exact signExtend_fits64 v h1 h2

theorem digitByte_ne_sign (d : Nat) (h : d < 10) : digitByte d ≠ 43 ∧ digitByte d ≠ 45 := by
  have ht := digitByte_toNat d h
  constructor
  · intro hc
    rw [hc] at ht
    have : (43 : UInt8).toNat = 43 := by decide
    omega
  · intro hc
    rw [hc] at ht
    have : (45 : UInt8).toNat = 45 := by decide
    omega

theorem isDigitByte_digitByte (d : Nat) (h : d < 10) : isDigitByte (digitByte d) = true := by
  simp [isDigitByte, digitByte_toNat d h]
  omega

theorem all_digitByte (ds : List Nat) (hds : ∀ d ∈ ds, d < 10) :
    (ds.map digitByte).all isDigitByte = true := by
  rw [List.all_eq_true]
  intro b hb
  rw [List.mem_map] at hb
  obtain ⟨d, hd, rfl⟩ := hb
  exact isDigitByte_digitByte d (hds d hd)

theorem foldl_digitByte (ds : List Nat) (hds : ∀ d ∈ ds, d < 10) :
    ∀ acc : Nat, (ds.map digitByte).foldl (fun acc b => acc * 10 + (b.toNat - 48)) acc
      = ds.foldl (fun acc d => acc * 10 + d) acc := by
  induction ds with
  | nil => intro acc; rfl
  | cons d ds ih =>
    intro acc
    have hd : d < 10 := hds d (List.mem_cons_self _ _)
    have hds2 : ∀ x ∈ ds, x < 10 := fun x hx => hds x (List.mem_cons_of_mem _ hx)
    simp only [List.map_cons, List.foldl_cons, digitByte_toNat d hd]
    rw [ih hds2]
    congr 1
    omega

theorem foldl_digitByte_zero (ds : List Nat) (hds : ∀ d ∈ ds, d < 10) :
    (ds.map digitByte).foldl (fun acc b => acc * 10 + (b.toNat - 48)) 0 = decValue ds :=
  foldl_digitByte ds hds 0

theorem ParseInt_unsigned (env : GoEnv) (ds : List Nat) (hne : ds ≠ [])
    (hds : ∀ d ∈ ds, d < 10) (hval : decValue ds < 2 ^ 63) :
    ParseInt env (ds.map digitByte) = Except.ok ((decValue ds : Nat) : Int) := by
  have hall := all_digitByte ds hds
  have hf := foldl_digitByte_zero ds hds
  have hnil : ds.map digitByte ≠ [] := by simpa using hne
  have hlt : ¬ (2 ^ 63 ≤ decValue ds) := by omega
  have hhead : (ds.map digitByte).head? ≠ some 43 ∧ (ds.map digitByte).head? ≠ some 45 := by
    cases ds with
    | nil => exact absurd rfl hne
    | cons d ds =>
      have hs := digitByte_ne_sign d (hds d (List.mem_cons_self _ _))
      simp [hs.1, hs.2]
  unfold ParseInt
  simp only [hhead.1, hhead.2, or_self, if_false, hall, hf, hnil, not_true_eq_false,
    decide_False, Bool.false_eq_true, not_false_eq_true, true_and, hlt, false_and]

theorem ParseInt_negative (env : GoEnv) (ds : List Nat) (hne : ds ≠ [])
    (hds : ∀ d ∈ ds, d < 10) (hval : decValue ds ≤ 2 ^ 63) :
    ParseInt env (45 :: ds.map digitByte) = Except.ok (- ((decValue ds : Nat) : Int)) := by
  have hall := all_digitByte ds hds
  have hf := foldl_digitByte_zero ds hds
  have hnil : ds.map digitByte ≠ [] := by simpa using hne
  have hlt : ¬ (2 ^ 63 < decValue ds) := by omega
  unfold ParseInt
  simp only [List.head?_cons, List.tail_cons, or_true, if_true, hall, hf, hnil,
    not_true_eq_false, or_self, if_false, decide_True, true_and, hlt, false_and]

theorem scanInt_unsigned (env : GoEnv) (bitSize : Nat) (ds : List Nat) (hne : ds ≠ [])
    (hds : ∀ d ∈ ds, d < 10) (rest : List Nat)
    (hrest : ∀ r ∈ rest.head?, isDigit r = false) (count : Nat)
    (hcount : count + ds.length ≤ hugeWid) (hval : decValue ds < 2 ^ 63)
    (hfit : signExtend bitSize (decValue ds : Nat) = (decValue ds : Nat)) :
    scanInt env bitSize { rs := ds.map (fun d => 48 + d) ++ rest, count := count }
      = Except.ok (((decValue ds : Nat) : Int), { rs := rest, count := count + ds.length }) := by
  cases ds with
  | nil => exact absurd rfl hne
  | cons d ds =>
    have hd : d < 10 := hds d (List.mem_cons_self _ _)
    have hds2 : ∀ x ∈ ds, x < 10 := fun x hx => hds x (List.mem_cons_of_mem _ hx)
    have hc : ¬ hugeWid ≤ count := by simp at hcount; omega
    have hacc := acceptDigits_digits ds hds2 rest hrest (count + 1) [digitByte d]
      (by simp at hcount; omega)
    have hparse := ParseInt_unsigned env (d :: ds) hne hds hval
    simp only [List.map_cons] at hparse
    simp only [scanInt, List.map_cons, List.cons_append, List.append_eq,
      SkipSpace_nonspace _ _ _ (isSpace_digit d hd), ss.notEOF, ss.getRune, hc, if_false,
      ss.accept, isSign_digit d hd, isDigit_digit d hd, EncodeRune_digit d hd, if_true,
      List.nil_append, hacc, List.singleton_append, hparse, hfit, ne_eq, not_true_eq_false,
      Bool.false_eq_true]
    simp only [List.length_cons, Nat.add_assoc, Nat.add_comm 1]

theorem scanInt_negative (env : GoEnv) (bitSize : Nat) (ds : List Nat) (hne : ds ≠ [])
    (hds : ∀ d ∈ ds, d < 10) (rest : List Nat)
    (hrest : ∀ r ∈ rest.head?, isDigit r = false) (count : Nat)
    (hcount : count + 1 + ds.length ≤ hugeWid) (hval : decValue ds ≤ 2 ^ 63)
    (hfit : signExtend bitSize (- ((decValue ds : Nat) : Int)) = - ((decValue ds : Nat) : Int)) :
    scanInt env bitSize { rs := 45 :: (ds.map (fun d => 48 + d) ++ rest), count := count }
      = Except.ok (- ((decValue ds : Nat) : Int),
          { rs := rest, count := count + 1 + ds.length }) := by
  cases ds with
  | nil => exact absurd rfl hne
  | cons d ds =>
    have hd : d < 10 := hds d (List.mem_cons_self _ _)
    have hds2 : ∀ x ∈ ds, x < 10 := fun x hx => hds x (List.mem_cons_of_mem _ hx)
    have hc : ¬ hugeWid ≤ count := by simp at hcount; omega
    have hc1 : ¬ hugeWid ≤ count + 1 := by simp at hcount; omega
    have hacc := acceptDigits_digits ds hds2 rest hrest (count + 1 + 1) [45, digitByte d]
      (by simp at hcount; omega)
    have hparse := ParseInt_negative env (d :: ds) hne hds hval
    simp only [List.map_cons] at hparse
    have hsp : isSpace 45 = false := by decide
    have hsg : isSign 45 = true := by decide
    have henc : EncodeRune 45 = [45] := by decide
    simp only [scanInt, List.map_cons, List.cons_append, List.append_eq,
      SkipSpace_nonspace _ _ _ hsp, ss.notEOF, ss.getRune, hc, hc1, if_false,
      ss.accept, hsg, isDigit_digit d hd, EncodeRune_digit d hd, henc, if_true,
      List.nil_append, hacc, List.singleton_append, List.cons_append, hparse, hfit, ne_eq,
      not_true_eq_false]
    simp only [List.length_cons, Nat.add_assoc, Nat.add_comm 1, Except.ok.injEq, Prod.mk.injEq,
      ss.mk.injEq, true_and]
/-- The runes of the decimal rendering of an integer: a minus sign if negative, then digits. -/
theorem FormatInt_runes (v : Int) :
    (FormatInt v).map UInt8.toNat
      = (if v < 0 then [45] else []) ++ (decDigits v.natAbs).map (fun d => 48 + d) := by
  have hmap : (formatNat v.natAbs).map UInt8.toNat
      = (decDigits v.natAbs).map (fun d => 48 + d) := by
    unfold formatNat
    rw [List.map_map]
    apply List.map_congr_left
    intro d hd
    exact digitByte_toNat d (decDigits_lt _ d hd)
  have hminus : (str "-").map UInt8.toNat = [45] := by decide
  unfold FormatInt
  split
  · rw [List.map_append, hmap, hminus]
  · rw [hmap]; rfl

theorem FormatInt_ascii (v : Int) : ∀ b ∈ FormatInt v, b.toNat < 128 := by
  intro b hb
  have hmem : b.toNat ∈ (FormatInt v).map UInt8.toNat := List.mem_map_of_mem _ hb
  rw [FormatInt_runes] at hmem
  rw [List.mem_append] at hmem
  rcases hmem with h | h
  · split at h
    · simp at h; omega
    · simp at h
  · rw [List.mem_map] at h
    obtain ⟨d, hd, hbd⟩ := h
    have := decDigits_lt _ d hd
    omega

theorem FormatInt_length (v : Int) (h1 : -(2 ^ 63) ≤ v) (h2 : v < 2 ^ 63) :
    (FormatInt v).length ≤ 20 := by
  have hlen : ((FormatInt v).map UInt8.toNat).length = (FormatInt v).length :=
    List.length_map _ _
  rw [← hlen, FormatInt_runes, List.length_append, List.length_map]
  have hd : (decDigits v.natAbs).length ≤ 19 := by
    apply decDigits_length _ 19 (by norm_num)
    norm_num at h1 h2 ⊢
    omega
  split <;> simp <;> omega

/-- The first rune of a rendered integer is a sign or a digit, never a blank. -/
theorem FormatInt_head (v : Int) :
    ∃ r t, (FormatInt v).map UInt8.toNat = r :: t ∧ isSpace r = false := by
  rw [FormatInt_runes]
  by_cases hv : v < 0
  · exact ⟨45, (decDigits v.natAbs).map (fun d => 48 + d), by simp [hv], by decide⟩
  · have hne := decDigits_ne_nil v.natAbs
    cases hds : decDigits v.natAbs with
    | nil => exact absurd hds hne
    | cons d ds =>
      have hd : d < 10 := decDigits_lt v.natAbs d (by rw [hds]; exact List.mem_cons_self _ _)
      exact ⟨48 + d, ds.map (fun d => 48 + d), by simp [hv], isSpace_digit d hd⟩

/-- Scanning `%d` over the decimal rendering of an integer that fits reads
exactly that rendering and gives the integer back. -/
theorem scanInt_FormatInt (env : GoEnv) (bitSize : Nat) (v : Int) (rest : List Nat)
    (hrest : ∀ r ∈ rest.head?, isDigit r = false) (count : Nat)
    (hcount : count + (FormatInt v).length ≤ hugeWid)
    (h1 : -(2 ^ 63) ≤ v) (h2 : v < 2 ^ 63) (hfit : signExtend bitSize v = v) :
    scanInt env bitSize { rs := (FormatInt v).map UInt8.toNat ++ rest, count := count }
      = Except.ok (v, { rs := rest, count := count + (FormatInt v).length }) := by
  have hlen : (FormatInt v).length = ((FormatInt v).map UInt8.toNat).length :=
    (List.length_map _ _).symm
  rw [hlen] at hcount ⊢
  rw [FormatInt_runes] at hcount ⊢
  have hne := decDigits_ne_nil v.natAbs
  have hds := decDigits_lt v.natAbs
  have hval := decDigits_value v.natAbs
  by_cases hv : v < 0
  · have hneg : - ((decValue (decDigits v.natAbs) : Nat) : Int) = v := by
      rw [hval]; omega
    have h := scanInt_negative env bitSize (decDigits v.natAbs) hne hds rest hrest count
      (by simp [hv] at hcount; omega) (by rw [hval]; norm_num at h1 ⊢; omega)
      (by rw [hneg]; exact hfit)
    rw [hneg] at h
    simp only [hv, if_true, List.cons_append, List.nil_append, List.length_cons,
      List.length_map]
    rw [h]
    simp [Nat.add_assoc, Nat.add_comm 1]
  · have hpos : ((decValue (decDigits v.natAbs) : Nat) : Int) = v := by
      rw [hval]; omega
    have h := scanInt_unsigned env bitSize (decDigits v.natAbs) hne hds rest hrest count
      (by simp [hv] at hcount; omega) (by rw [hval]; norm_num at h2 ⊢; omega)
      (by rw [hpos]; exact hfit)
    rw [hpos] at h
    simp only [hv, if_false, List.nil_append, List.length_map]
    rw [h]
theorem skipBlanks_nonspace (r : Nat) (t : List Nat) (count : Nat) (h : isSpace r = false) :
    skipBlanks (r :: t) count = { rs := r :: t, count := count } := by
  unfold skipBlanks
  by_cases hc : hugeWid ≤ count
  · simp [hc]
  · simp [hc, h]

theorem IntSize_fits (sz : IntSize) (v : Int) (h1 : -(2 ^ (sz.bits - 1)) ≤ v)
    (h2 : v < 2 ^ (sz.bits - 1)) : -(2 ^ 63) ≤ v ∧ v < 2 ^ 63 := by
  cases sz <;> simp only [IntSize.bits] at h1 h2 <;> norm_num at h1 h2 ⊢ <;> omega

/-- Scanning "%d %d" over two rendered integers separated by one space gives both back. -/
theorem Sscanf_FormatInt (env : GoEnv) (i n : Int)
    (hi1 : -(2 ^ (env.intSize.bits - 1)) ≤ i) (hi2 : i < 2 ^ (env.intSize.bits - 1))
    (hn1 : -(2 ^ 63) ≤ n) (hn2 : n < 2 ^ 63) :
    Sscanf env (FormatInt i ++ str " " ++ FormatInt n) = (i, n, none) := by
  have hi64 := IntSize_fits env.intSize i hi1 hi2
  have hli := FormatInt_length i hi64.1 hi64.2
  have hln := FormatInt_length n hn1 hn2
  have hsp : str " " = [32] := by decide
  have hrunes : runes (FormatInt i ++ str " " ++ FormatInt n)
      = (FormatInt i).map UInt8.toNat ++ 32 :: ((FormatInt n).map UInt8.toNat ++ []) := by
    unfold runes
    rw [runesFrom_ascii]
    · simp [hsp]
    · intro b hb
      simp only [List.mem_append, hsp, List.mem_singleton] at hb
      rcases hb with (hb | hb) | hb
      · exact FormatInt_ascii i b hb
      · subst hb; decide
      · exact FormatInt_ascii n b hb
  obtain ⟨ri, ti, hRI, hspi⟩ := FormatInt_head i
  obtain ⟨rn, tn, hRN, hspn⟩ := FormatInt_head n
  have hskip0 : SkipSpace ((FormatInt i).map UInt8.toNat
        ++ 32 :: ((FormatInt n).map UInt8.toNat ++ [])) 0
      = Except.ok { rs := ((FormatInt i).map UInt8.toNat
          ++ 32 :: ((FormatInt n).map UInt8.toNat ++ [])), count := 0 } := by
    rw [hRI]
    exact SkipSpace_nonspace ri _ 0 hspi
  have hscan1 := scanInt_FormatInt env env.intSize.bits i
    (32 :: ((FormatInt n).map UInt8.toNat ++ [])) (by intro r hr; simp at hr; subst hr; decide)
    0 (by unfold hugeWid; omega) hi64.1 hi64.2 (signExtend_fits env.intSize i hi1 hi2)
  have hc1 : ¬ hugeWid ≤ 0 + (FormatInt i).length := by unfold hugeWid; omega
  have hadv : advanceSpace
        (ss.mk (32 :: ((FormatInt n).map UInt8.toNat ++ [])) (0 + (FormatInt i).length))
      = Except.ok (ss.mk ((FormatInt n).map UInt8.toNat ++ [])
          (0 + (FormatInt i).length + 1)) := by
    have h32 : isSpace 32 = true := by decide
    simp only [advanceSpace, ss.getRune, hc1, if_false, h32, not_true_eq_false,
      show (32 : Nat) ≠ 10 by decide, show ¬ ((32 : Nat) = 10) by decide]
    rw [hRN]
    exact congrArg Except.ok (skipBlanks_nonspace rn _ _ hspn)
  have hskip2 : SkipSpace ((FormatInt n).map UInt8.toNat ++ []) (0 + (FormatInt i).length + 1)
      = Except.ok (ss.mk ((FormatInt n).map UInt8.toNat ++ [])
          (0 + (FormatInt i).length + 1)) := by
    rw [hRN]
    exact SkipSpace_nonspace rn _ _ hspn
  have hscan2 := scanInt_FormatInt env 64 n [] (by intro r hr; simp at hr)
    (0 + (FormatInt i).length + 1) (by unfold hugeWid; omega) hn1 hn2
    (signExtend_fits64 n hn1 hn2)
  unfold Sscanf
  rw [hrunes, hskip0]
  simp only [hscan1, hadv, hskip2, hscan2]

theorem parseListResponse_FormatInt (env : GoEnv) (i n : Int)
    (hi1 : -(2 ^ (env.intSize.bits - 1)) ≤ i) (hi2 : i < 2 ^ (env.intSize.bits - 1))
    (hn1 : -(2 ^ 63) ≤ n) (hn2 : n < 2 ^ 63) :
    parseListResponse env (FormatInt i ++ str " " ++ FormatInt n) = (i, n, none) := by
  unfold parseListResponse
  rw [Sscanf_FormatInt env i n hi1 hi2 hn1 hn2]
/-! ### Parsing listing lines -/

theorem FormatInt_natCast (n : Nat) : FormatInt (n : Int) = formatNat n := by
  unfold FormatInt
  have h : ¬ ((n : Int) < 0) := by omega
  simp [h]

/-- C9: for a non-negative index `i` fitting an `int` and size `n` fitting an
`int64`, `parseListResponse` on the decimal rendering of `i`, one space and
the decimal rendering of `n` returns index `i`, size `n` and no error. -/
theorem parseListResponse_roundtrip (env : GoEnv) (i n : Nat)
    (hi : (i : Int) < 2 ^ (env.intSize.bits - 1)) (hn : (n : Int) < 2 ^ 63) :
    parseListResponse env (formatNat i ++ str " " ++ formatNat n)
      = ((i : Int), (n : Int), none) := by
  have h := parseListResponse_FormatInt env (i : Int) (n : Int)
    (by have : (0 : Int) ≤ 2 ^ (env.intSize.bits - 1) := by positivity
        omega) hi (by norm_num; omega) hn
  rw [FormatInt_natCast, FormatInt_natCast] at h
  exact h

theorem parseListResponse_roundtrip_witness :
    ((15 : Nat) : Int) < 2 ^ (env64.intSize.bits - 1) ∧ ((100020 : Nat) : Int) < 2 ^ 63
      ∧ parseListResponse env64 (str "15 100020") = (15, 100020, none) :=
  ⟨by decide, by decide, by
    have h := parseListResponse_roundtrip env64 15 100020 (by decide) (by decide)
    have e : formatNat 15 ++ str " " ++ formatNat 100020 = str "15 100020" := by
      simp [formatNat, decDigits]
      decide
    rw [e] at h
    exact h⟩

theorem parseResponseLine_state {ρ : Type} (env : GoEnv)
    (ReadLine : ρ → (GoString × Option GoError) × ρ) (r : ρ) :
    (parseResponseLine env ReadLine r).2 = (ReadLine r).2 := by
  unfold parseResponseLine
  rcases h : ReadLine r with ⟨⟨message, err⟩, r1⟩
  cases err with
  | some e => rfl
  | none =>
    simp only
    repeat' split
    all_goals rfl

theorem command_addr {σ : Type} (env : GoEnv) (tr : Transport σ) (c : Client σ)
    (cmd : GoString) (args : List Arg) :
    (Client.command env tr c cmd args).2.addr = c.addr := by
  unfold Client.command
  cases herr : c.err with
  | some e => rfl
  | none =>
    simp only
    rcases hw : Client.PrintfLine tr
      (if args.length > 0 then
        (cmd ++ str " " ++ Sprintln args).take ((cmd ++ str " " ++ Sprintln args).length - 1)
      else cmd) c with ⟨werr, c1⟩
    have hc1 : c1.addr = c.addr := by
      have := congrArg (fun x => x.2.addr) hw
      simpa [Client.PrintfLine] using this.symm
    cases werr with
    | some e => exact hc1
    | none =>
      simp only
      have hst := parseResponseLine_state env (Client.ReadLine tr) c1
      rcases hp : parseResponseLine env (Client.ReadLine tr) c1 with ⟨⟨resp, perr⟩, c2⟩
      rw [hp] at hst
      simp only at hst
      have hc2 : c2.addr = c.addr := by
        rw [hst]
        simpa [Client.ReadLine] using hc1
      cases perr <;> exact hc2

theorem listLine_ne_dot (p : Int × Int) : listLine p ≠ str "." := by
  intro h
  have hlen := congrArg List.length h
  obtain ⟨r, t, hR, _⟩ := FormatInt_head p.1
  have h1 : 1 ≤ (FormatInt p.1).length := by
    have := congrArg List.length hR
    simp at this
    omega
  have hd : (str ".").length = 1 := by decide
  have hs : (str " ").length = 1 := by decide
  simp only [listLine, List.length_append, hd, hs] at hlen
  omega

theorem delivers_cons {σ : Type} (tr : Transport σ) (s s2 : σ) (l : GoString)
    (ls : List GoString) (h : delivers tr s (l :: ls) = some s2) :
    (tr.ReadLine s).1 = (l, none) ∧ delivers tr (tr.ReadLine s).2 ls = some s2 := by
  unfold delivers at h
  rcases hr : tr.ReadLine s with ⟨⟨l1, err⟩, s1⟩
  rw [hr] at h
  cases err with
  | some e => simp at h
  | none =>
    simp only at h
    by_cases hl : l1 = l
    · simp only [hl, if_true] at h
      exact ⟨by rw [hl], h⟩
    · simp [hl] at h

theorem GetMessages_loop_listing {σ : Type} (env : GoEnv) (tr : Transport σ)
    (pairs : List (Int × Int))
    (hfit : ∀ p ∈ pairs, (-(2 ^ (env.intSize.bits - 1)) ≤ p.1 ∧ p.1 < 2 ^ (env.intSize.bits - 1))
      ∧ (-(2 ^ 63) ≤ p.2 ∧ p.2 < 2 ^ 63)) :
    ∀ (c1 : Client σ) (acc : List Message) (fuel : Nat) (s2 : σ), pairs.length < fuel →
      delivers tr c1.conn (pairs.map listLine ++ [str "."]) = some s2 →
      Client.GetMessages.loop env tr fuel c1 acc
        = some ((some (acc ++ pairs.map (fun p => { c := c1.addr, i := p.1, n := p.2 })), none),
            { c1 with conn := s2,
                      log := c1.log ++ List.replicate (pairs.length + 1) Event.read }) := by
  induction pairs with
  | nil =>
    intro c1 acc fuel s2 hfuel hdel
    obtain ⟨f, rfl⟩ : ∃ f, fuel = f + 1 := ⟨fuel - 1, by simp at hfuel; omega⟩
    obtain ⟨hline, hrest⟩ := delivers_cons tr c1.conn s2 (str ".") [] hdel
    simp only [delivers, Option.some.injEq] at hrest
    rcases hr : tr.ReadLine c1.conn with ⟨⟨l1, err⟩, s1⟩
    rw [hr] at hline hrest
    simp only [Prod.mk.injEq] at hline
    obtain ⟨rfl, rfl⟩ := hline
    simp only at hrest
    subst hrest
    simp [Client.GetMessages.loop, Client.ReadLine, hr]
  | cons p ps ih =>
    intro c1 acc fuel s2 hfuel hdel
    obtain ⟨f, rfl⟩ : ∃ f, fuel = f + 1 := ⟨fuel - 1, by simp at hfuel; omega⟩
    have hp := hfit p (List.mem_cons_self _ _)
    have hps : ∀ q ∈ ps, (-(2 ^ (env.intSize.bits - 1)) ≤ q.1 ∧ q.1 < 2 ^ (env.intSize.bits - 1))
        ∧ (-(2 ^ 63) ≤ q.2 ∧ q.2 < 2 ^ 63) := fun q hq => hfit q (List.mem_cons_of_mem _ hq)
    obtain ⟨hline, hrest⟩ := delivers_cons tr c1.conn s2 (listLine p) _ hdel
    rcases hr : tr.ReadLine c1.conn with ⟨⟨l1, err⟩, s1⟩
    rw [hr] at hline hrest
    simp only [Prod.mk.injEq] at hline
    obtain ⟨rfl, rfl⟩ := hline
    simp only at hrest
    have hparse : parseListResponse env (listLine p) = (p.1, p.2, none) :=
      parseListResponse_FormatInt env p.1 p.2 hp.1.1 hp.1.2 hp.2.1 hp.2.2
    have hih := ih hps { c1 with conn := s1, log := c1.log ++ [Event.read] }
      (acc ++ [{ c := c1.addr, i := p.1, n := p.2 }]) f s2
      (by simp at hfuel; omega) hrest
    simp only [Client.GetMessages.loop, Client.ReadLine, hr, listLine_ne_dot p, if_false,
      hparse]
    rw [hih]
    simp [List.replicate_succ, List.append_assoc]

/-- C8: when the LIST command succeeds and the connection then delivers one line
"<index> <size>" per pair followed by the line ".", `GetMessages` (given fuel
for more iterations than there are pairs) returns exactly one handle per
pair, in server order, each bound to the client with that index and size,
and it reads exactly those lines and the terminator. -/
theorem GetMessages_listing {σ : Type} (env : GoEnv) (tr : Transport σ) (c c1 : Client σ)
    (payload : GoString) (pairs : List (Int × Int))
    (hfit : ∀ p ∈ pairs, (-(2 ^ (env.intSize.bits - 1)) ≤ p.1 ∧ p.1 < 2 ^ (env.intSize.bits - 1))
      ∧ (-(2 ^ 63) ≤ p.2 ∧ p.2 < 2 ^ 63))
    (hcmd : Client.command env tr c CommandList [] = ((payload, none), c1))
    (s2 : σ) (hdel : delivers tr c1.conn (pairs.map listLine ++ [str "."]) = some s2)
    (fuel : Nat) (hfuel : pairs.length < fuel) :
    Client.GetMessages env tr fuel c
      = some ((some (pairs.map (fun p => { c := c.addr, i := p.1, n := p.2 })), none),
          { c1 with conn := s2,
                    log := c1.log ++ List.replicate (pairs.length + 1) Event.read }) := by
  have haddr : c1.addr = c.addr := by
    have := command_addr env tr c CommandList []
    rw [hcmd] at this
    exact this
  unfold Client.GetMessages
  rw [hcmd]
  simp only
  rw [GetMessages_loop_listing env tr pairs hfit c1 [] fuel s2 hfuel hdel, haddr]
  simp

theorem GetMessages_listing_witness :
    Client.GetMessages env64 scripted 3
        { conn := { incoming := [str "+OK 2 messages", str "1 500", str "2 700", str "."],
                    closed := false },
          err := none, addr := 7, log := [] }
      = some ((some [{ c := 7, i := 1, n := 500 }, { c := 7, i := 2, n := 700 }], none),
          { conn := { incoming := [], closed := false }, err := none, addr := 7,
            log := [Event.write (str "LIST"), Event.read, Event.read, Event.read,
              Event.read] }) := by
  have hlines : [((1 : Int), (500 : Int)), (2, 700)].map listLine ++ [str "."]
      = [str "1 500", str "2 700", str "."] := by
    simp [listLine, FormatInt, formatNat, decDigits]
    decide
  have h := GetMessages_listing env64 scripted
    { conn := { incoming := [str "+OK 2 messages", str "1 500", str "2 700", str "."],
                closed := false },
      err := none, addr := 7, log := [] }
    { conn := { incoming := [str "1 500", str "2 700", str "."], closed := false },
      err := none, addr := 7, log := [Event.write (str "LIST"), Event.read] }
    (str "2 messages") [(1, 500), (2, 700)]
    (by simp [env64, IntSize.bits]) (by decide)
    { incoming := [], closed := false }
    (by rw [hlines]; decide) 3 (by decide)
  exact h

/-! ### One command exchange -/

theorem parseResponseLine_client {σ : Type} (env : GoEnv) (tr : Transport σ) (c : Client σ) :
    parseResponseLine env (Client.ReadLine tr) c
      = ((parseResponseLine env tr.ReadLine c.conn).1,
          { c with conn := (tr.ReadLine c.conn).2, log := c.log ++ [Event.read] }) := by
  unfold parseResponseLine Client.ReadLine
  rcases h : tr.ReadLine c.conn with ⟨⟨message, err⟩, r1⟩
  cases err with
  | some e => rfl
  | none =>
    simp only
    repeat' split
    all_goals rfl

theorem command_active {σ : Type} (env : GoEnv) (tr : Transport σ) (c : Client σ)
    (cmd : GoString) (args : List Arg) (hc : c.err = none) :
    Client.command env tr c cmd args
      = (match Client.PrintfLine tr (commandLine cmd args) c with
          | (some err, c1) => (([], some (GoError.plain (cmd ++ str ": " ++ err.Error))), c1)
          | (none, c1) =>
            match parseResponseLine env (Client.ReadLine tr) c1 with
            | ((resp, some err), c2) =>
              ((resp, some (GoError.plain (cmd ++ str ": " ++ err.Error))), c2)
            | ((resp, none), c2) => ((resp, none), c2)) := by
  unfold Client.command commandLine
  simp only [hc]

theorem command_write_fails {σ : Type} (env : GoEnv) (tr : Transport σ) (c : Client σ)
    (cmd : GoString) (args : List Arg) (hc : c.err = none) (e : GoError)
    (hw : (tr.PrintfLine (commandLine cmd args) c.conn).1 = some e) :
    Client.command env tr c cmd args
      = (([], some (GoError.plain (cmd ++ str ": " ++ e.Error))),
          { c with conn := (tr.PrintfLine (commandLine cmd args) c.conn).2,
                   log := c.log ++ [Event.write (commandLine cmd args)] }) := by
  rw [command_active env tr c cmd args hc]
  simp only [Client.PrintfLine, hw]

theorem command_write_ok {σ : Type} (env : GoEnv) (tr : Transport σ) (c : Client σ)
    (cmd : GoString) (args : List Arg) (hc : c.err = none)
    (hw : (tr.PrintfLine (commandLine cmd args) c.conn).1 = none) :
    Client.command env tr c cmd args
      = ((match (parseResponseLine env tr.ReadLine
                  (tr.PrintfLine (commandLine cmd args) c.conn).2).1 with
          | (resp, some err) => (resp, some (GoError.plain (cmd ++ str ": " ++ err.Error)))
          | (resp, none) => (resp, none)),
          { c with conn := (tr.ReadLine (tr.PrintfLine (commandLine cmd args) c.conn).2).2,
                   log := c.log ++ [Event.write (commandLine cmd args), Event.read] }) := by
  rw [command_active env tr c cmd args hc]
  simp only [Client.PrintfLine, hw, parseResponseLine_client]
  rcases hp : (parseResponseLine env tr.ReadLine
      (tr.PrintfLine (commandLine cmd args) c.conn).2).1 with ⟨resp, perr⟩
  cases perr <;> simp [List.append_assoc]

/-! ### Closing -/

theorem command_log_cases {σ : Type} (env : GoEnv) (tr : Transport σ) (c : Client σ)
    (cmd : GoString) (args : List Arg) :
    (Client.command env tr c cmd args).2.log = c.log
      ∨ (Client.command env tr c cmd args).2.log = c.log ++ [Event.write (commandLine cmd args)]
      ∨ (Client.command env tr c cmd args).2.log
          = c.log ++ [Event.write (commandLine cmd args), Event.read] := by
  cases hc : c.err with
  | some e => left; rw [command_terminal env tr c e hc]
  | none =>
    cases hw : (tr.PrintfLine (commandLine cmd args) c.conn).1 with
    | some e => right; left; rw [command_write_fails env tr c cmd args hc e hw]
    | none => right; right; rw [command_write_ok env tr c cmd args hc hw]

theorem command_no_close {σ : Type} (env : GoEnv) (tr : Transport σ) (c : Client σ)
    (cmd : GoString) (args : List Arg) :
    (Client.command env tr c cmd args).2.log.count Event.close = c.log.count Event.close := by
  rcases command_log_cases env tr c cmd args with h | h | h <;> rw [h] <;> simp

theorem Quit_no_close {σ : Type} (env : GoEnv) (tr : Transport σ) (c : Client σ) :
    (Client.Quit env tr c).2.log.count Event.close = c.log.count Event.close := by
  unfold Client.Quit
  split
  · exact command_no_close env tr c CommandQuit []
  · rfl

theorem Close_unfold {σ : Type} (env : GoEnv) (tr : Transport σ) (c : Client σ)
    (h : c.err ≠ some ErrWriteAfterClose) :
    (Client.Close env tr c).2 = (Client.connClose tr (Client.Quit env tr c).2).2
      ∧ (Client.Close env tr c).1
          = (match (Client.Quit env tr c).1 with
              | some e => some e
              | none => (tr.Close (Client.Quit env tr c).2.conn).1) := by
  unfold Client.Close
  simp only [h, if_false]
  rcases hq : Client.Quit env tr c with ⟨qerr, c1⟩
  cases qerr <;> simp [Client.connClose]

/-- C11: a `Close` on a client whose terminal flag is not `ErrWriteAfterClose` (every
client that has not been closed before) closes the connection exactly once,
after `Quit`, whether or not QUIT succeeded: if `Quit` failed `Close` returns
that error and drops the result of the close, otherwise it returns the
result of the close. -/
theorem Close_closes_once {σ : Type} (env : GoEnv) (tr : Transport σ) (c : Client σ)
    (h : c.err ≠ some ErrWriteAfterClose) :
    (Client.Close env tr c).2.log = (Client.Quit env tr c).2.log ++ [Event.close]
      ∧ (Client.Quit env tr c).2.log.count Event.close = c.log.count Event.close
      ∧ (Client.Close env tr c).2.log.count Event.close = c.log.count Event.close + 1
      ∧ (Client.Close env tr c).2.conn = (tr.Close (Client.Quit env tr c).2.conn).2
      ∧ (∀ e, (Client.Quit env tr c).1 = some e → (Client.Close env tr c).1 = some e)
      ∧ ((Client.Quit env tr c).1 = none →
          (Client.Close env tr c).1 = (tr.Close (Client.Quit env tr c).2.conn).1)
      ∧ (c.err = none →
          (Client.Quit env tr c).1 = (Client.command env tr c CommandQuit []).1.2) := by
  obtain ⟨hst, hres⟩ := Close_unfold env tr c h
  have hlog : (Client.Close env tr c).2.log = (Client.Quit env tr c).2.log ++ [Event.close] := by
    rw [hst]; rfl
  refine ⟨hlog, Quit_no_close env tr c, ?_, ?_, ?_, ?_, ?_⟩
  · rw [hlog, List.count_append, Quit_no_close env tr c]
    simp
  · rw [hst]; rfl
  · intro e he
    rw [hres, he]
  · intro he
    rw [hres, he]
  · intro hc
    simp [Client.Quit, hc]

theorem Close_closes_once_witness :
    ((Client.Close env64 scripted
          { conn := { incoming := [str "-ERR busy"], closed := false },
            err := none, addr := 0, log := [Event.read] }).1
        = some (GoError.plain (str "QUIT: busy"))
      ∧ (Client.Close env64 scripted
          { conn := { incoming := [str "-ERR busy"], closed := false },
            err := none, addr := 0, log := [Event.read] }).2.log
        = [Event.read, Event.write (str "QUIT"), Event.read, Event.close])
      ∧ (Client.Close env64 scripted
          { conn := { incoming := [str "+OK bye"], closed := false },
            err := none, addr := 0, log := [Event.read] }).2.log.count Event.close = 1 :=
  ⟨⟨by
      have h := (Close_closes_once env64 scripted
        { conn := { incoming := [str "-ERR busy"], closed := false },
          err := none, addr := 0, log := [Event.read] } (by decide)).2.2.2.2.1
        (GoError.plain (str "QUIT: busy")) (by decide)
      exact h, by decide⟩,
    (Close_closes_once env64 scripted
        { conn := { incoming := [str "+OK bye"], closed := false },
          err := none, addr := 0, log := [Event.read] } (by decide)).2.2.1⟩

/-! ### Login and the command exchange -/

/-- C12: `Login` issues USER and then PASS only if USER succeeded: if the USER
command fails, `Login` returns exactly that error and leaves the client as
the USER command left it (nothing further is written); if USER succeeds,
`Login` returns exactly the result of the PASS command. -/
theorem Login_user_then_pass {σ : Type} (env : GoEnv) (tr : Transport σ) (c : Client σ)
    (user pass : GoString) :
    (∀ e, (Client.command env tr c CommandUser [Arg.string user]).1.2 = some e →
        Client.Login env tr c user pass
            = (some e, (Client.command env tr c CommandUser [Arg.string user]).2)
          ∧ ((Client.Login env tr c user pass).2.log = c.log
            ∨ (Client.Login env tr c user pass).2.log
                = c.log ++ [Event.write (commandLine CommandUser [Arg.string user])]
            ∨ (Client.Login env tr c user pass).2.log
                = c.log ++ [Event.write (commandLine CommandUser [Arg.string user]),
                    Event.read]))
      ∧ ((Client.command env tr c CommandUser [Arg.string user]).1.2 = none →
        Client.Login env tr c user pass
          = ((Client.command env tr (Client.command env tr c CommandUser [Arg.string user]).2
                CommandPassword [Arg.string pass]).1.2,
             (Client.command env tr (Client.command env tr c CommandUser [Arg.string user]).2
                CommandPassword [Arg.string pass]).2)) := by
  constructor
  · intro e he
    have hL : Client.Login env tr c user pass
        = (some e, (Client.command env tr c CommandUser [Arg.string user]).2) := by
      unfold Client.Login
      rcases hu : Client.command env tr c CommandUser [Arg.string user] with ⟨⟨resp, uerr⟩, c1⟩
      rw [hu] at he
      simp only at he
      subst he
      rfl
    refine ⟨hL, ?_⟩
    rw [hL]
    exact command_log_cases env tr c CommandUser [Arg.string user]
  · intro he
    unfold Client.Login
    rcases hu : Client.command env tr c CommandUser [Arg.string user] with ⟨⟨resp, uerr⟩, c1⟩
    rw [hu] at he
    simp only at he
    subst he
    rfl

theorem Login_user_then_pass_witness :
    Client.Login env64 scripted
          { conn := { incoming := [str "-ERR unknown user", str "+OK"], closed := false },
            err := none, addr := 0, log := [] } (str "bob") (str "secret")
        = (some (GoError.plain (str "USER: unknown user")),
            { conn := { incoming := [str "+OK"], closed := false }, err := none, addr := 0,
              log := [Event.write (str "USER bob"), Event.read] })
      ∧ Client.Login env64 scripted
          { conn := { incoming := [str "+OK", str "-ERR bad password"], closed := false },
            err := none, addr := 0, log := [] } (str "bob") (str "secret")
        = (some (GoError.plain (str "PASS: bad password")),
            { conn := { incoming := [], closed := false }, err := none, addr := 0,
              log := [Event.write (str "USER bob"), Event.read,
                Event.write (str "PASS secret"), Event.read] }) :=
  ⟨by
    have h := ((Login_user_then_pass env64 scripted
      { conn := { incoming := [str "-ERR unknown user", str "+OK"], closed := false },
        err := none, addr := 0, log := [] } (str "bob") (str "secret")).1
      (GoError.plain (str "USER: unknown user")) (by decide)).1
    rw [h]
    decide, by
    have h := (Login_user_then_pass env64 scripted
      { conn := { incoming := [str "+OK", str "-ERR bad password"], closed := false },
        err := none, addr := 0, log := [] } (str "bob") (str "secret")).2 (by decide)
    rw [h]
    decide⟩

/-- C13: on a client with no terminal error, `command` writes exactly one line; if
the write fails it returns an empty payload and an error naming the command
and reads nothing; if the write succeeds it reads and classifies exactly
one response line. -/
theorem command_one_exchange {σ : Type} (env : GoEnv) (tr : Transport σ) (c : Client σ)
    (cmd : GoString) (args : List Arg) (hc : c.err = none) :
    (∀ e, (tr.PrintfLine (commandLine cmd args) c.conn).1 = some e →
        Client.command env tr c cmd args
          = (([], some (GoError.plain (cmd ++ str ": " ++ e.Error))),
              { c with conn := (tr.PrintfLine (commandLine cmd args) c.conn).2,
                       log := c.log ++ [Event.write (commandLine cmd args)] }))
      ∧ ((tr.PrintfLine (commandLine cmd args) c.conn).1 = none →
        Client.command env tr c cmd args
          = ((match (parseResponseLine env tr.ReadLine
                      (tr.PrintfLine (commandLine cmd args) c.conn).2).1 with
              | (resp, some err) =>
                (resp, some (GoError.plain (cmd ++ str ": " ++ err.Error)))
              | (resp, none) => (resp, none)),
              { c with
                  conn := (tr.ReadLine (tr.PrintfLine (commandLine cmd args) c.conn).2).2,
                  log := c.log ++ [Event.write (commandLine cmd args), Event.read] })) :=
  ⟨fun e hw => command_write_fails env tr c cmd args hc e hw,
   fun hw => command_write_ok env tr c cmd args hc hw⟩

theorem command_one_exchange_witness :
    Client.command env64 brokenPipe
          { conn := { incoming := [str "+OK"], closed := false },
            err := none, addr := 0, log := [] } (str "DELE") [Arg.int 3]
        = (([], some (GoError.plain (str "DELE: broken pipe"))),
            { conn := { incoming := [str "+OK"], closed := false }, err := none, addr := 0,
              log := [Event.write (str "DELE 3")] })
      ∧ Client.command env64 scripted
          { conn := { incoming := [str "+OK message 3 deleted", str "+OK"], closed := false },
            err := none, addr := 0, log := [] } (str "DELE") [Arg.int 3]
        = ((str "message 3 deleted", none),
            { conn := { incoming := [str "+OK"], closed := false }, err := none, addr := 0,
              log := [Event.write (str "DELE 3"), Event.read] }) := by
  have hline : commandLine (str "DELE") [Arg.int 3] = str "DELE 3" := by
    simp [commandLine, Sprintln, Arg.format, FormatInt, formatNat, decDigits]
    decide
  constructor
  · have h := (command_one_exchange env64 brokenPipe
      { conn := { incoming := [str "+OK"], closed := false },
        err := none, addr := 0, log := [] } (str "DELE") [Arg.int 3] rfl).1
      (GoError.plain (str "broken pipe")) rfl
    rw [h, hline]
    decide
  · have h := (command_one_exchange env64 scripted
      { conn := { incoming := [str "+OK message 3 deleted", str "+OK"], closed := false },
        err := none, addr := 0, log := [] } (str "DELE") [Arg.int 3] rfl).2 rfl
    rw [h, hline]
    decide

/-! ### Classification outcomes -/

theorem parseResponseLine_err_line {ρ : Type} (env : GoEnv)
    (ReadLine : ρ → (GoString × Option GoError) × ρ) (r : ρ) (m : GoString)
    (h : (ReadLine r).1 = (str "-ERR " ++ m, none)) :
    (parseResponseLine env ReadLine r).1 = ([], some (GoError.plain m)) := by
  rcases hr : ReadLine r with ⟨⟨line, err⟩, r1⟩
  rw [hr] at h
  simp only [Prod.mk.injEq] at h
  obtain ⟨rfl, rfl⟩ := h
  simp [parseResponseLine, hr, str_err_sp, str_err, str_ok]
  rw [if_neg (by omega)]

theorem parseResponseLine_err_plain {ρ : Type} (env : GoEnv)
    (ReadLine : ρ → (GoString × Option GoError) × ρ) (r : ρ) (e : GoError)
    (h : (parseResponseLine env ReadLine r).1.2 = some e) : asError e = none := by
  unfold parseResponseLine at h
  rcases hr : ReadLine r with ⟨⟨message, err⟩, r1⟩
  rw [hr] at h
  cases err with
  | some e2 =>
    simp only [Option.some.injEq] at h
    subst h
    rfl
  | none =>
    simp only at h
    repeat' split at h
    all_goals first
      | (simp only [Option.some.injEq] at h; subst h; rfl)
      | (simp at h)

theorem parseResponseLine_ok_iff {ρ : Type} (env : GoEnv)
    (ReadLine : ρ → (GoString × Option GoError) × ρ) (r r1 : ρ) (line : GoString)
    (h : ReadLine r = ((line, none), r1)) :
    (parseResponseLine env ReadLine r).1.2 = none ↔ line.take 3 = str "+OK" := by
  unfold parseResponseLine
  rw [h]
  simp only
  constructor
  · intro hres
    by_contra hne
    repeat' split at hres
    all_goals simp at hres
  · intro hok
    have hlen : 3 ≤ line.length := by
      have := congrArg List.length hok
      rw [List.length_take, str_ok] at this
      simp at this
      omega
    have h1 : ¬ line.length < 1 := by omega
    have h3 : ¬ line.length < 3 := by omega
    simp only [h1, h3, if_false, hok, if_true]
    split <;> rfl

theorem parseResponseLine_read_error {ρ : Type} (env : GoEnv)
    (ReadLine : ρ → (GoString × Option GoError) × ρ) (r r1 : ρ) (line : GoString)
    (e : GoError) (h : ReadLine r = ((line, some e), r1)) :
    parseResponseLine env ReadLine r
      = (([], some (GoError.plain (str "read line: " ++ e.Error))), r1) := by
  unfold parseResponseLine
  rw [h]

/-- C14 (as stated, refuted): on the response "-ERR no such message" to
`DELE 1`, `command` returns an error that is not a structured `Error` and
that renders as "DELE: no such message", without the "pop3: " prefix; and
on a client that has quit, `command` returns `ErrAlreadyQuit` itself, which
is not a structured `Error` and does not name the command. -/
theorem command_error_not_structured :
    (Client.command env64 scripted
        { conn := { incoming := [str "-ERR no such message"], closed := false },
          err := none, addr := 0, log := [] } (str "DELE") [Arg.int 1]).1
        = ([], some (GoError.plain (str "DELE: no such message")))
      ∧ asError (GoError.plain (str "DELE: no such message")) = none
      ∧ (GoError.plain (str "DELE: no such message")).Error
          ≠ str "pop3: DELE: no such message"
      ∧ (Client.command env64 scripted
          { conn := { incoming := [], closed := false },
            err := some ErrAlreadyQuit, addr := 0, log := [] } (str "NOOP") []).1
          = ([], some ErrAlreadyQuit)
      ∧ asError ErrAlreadyQuit = none
      ∧ ErrAlreadyQuit.Error = str "pop3: already quit from server" := by
  have hline : commandLine (str "DELE") [Arg.int 1] = str "DELE 1" := by
    simp [commandLine, Sprintln, Arg.format, FormatInt, formatNat, decDigits]
    decide
  refine ⟨?_, rfl, by decide, by decide, rfl, rfl⟩
  rw [command_write_ok env64 scripted _ (str "DELE") [Arg.int 1] rfl rfl, hline]
  decide

/-- C14 (amended): every failure `command` returns on a client with no terminal
error is an error made by `fmt.Errorf`, not a structured `Error`, whose text
is the command name, ": " and the text of the cause (the write failure, or
the failure of the read or of the classification); when the write succeeds
and the response line is "-ERR " followed by `m` it is the error with text
`cmd`, ": ", `m` and the payload is empty; on a client in a terminal state
`command` returns the stored terminal error itself. -/
theorem command_failure_names_command {σ : Type} (env : GoEnv) (tr : Transport σ)
    (c : Client σ) (cmd : GoString) (args : List Arg) :
    (c.err = none → ∀ e, (Client.command env tr c cmd args).1.2 = some e →
        asError e = none
          ∧ ((∃ w, (tr.PrintfLine (commandLine cmd args) c.conn).1 = some w
                ∧ e = GoError.plain (cmd ++ str ": " ++ w.Error))
            ∨ ((tr.PrintfLine (commandLine cmd args) c.conn).1 = none
                ∧ ∃ p, (parseResponseLine env tr.ReadLine
                          (tr.PrintfLine (commandLine cmd args) c.conn).2).1.2 = some p
                  ∧ e = GoError.plain (cmd ++ str ": " ++ p.Error))))
      ∧ (c.err = none → ∀ m,
          (tr.PrintfLine (commandLine cmd args) c.conn).1 = none →
          (tr.ReadLine (tr.PrintfLine (commandLine cmd args) c.conn).2).1
              = (str "-ERR " ++ m, none) →
          (Client.command env tr c cmd args).1
              = ([], some (GoError.plain (cmd ++ str ": " ++ m)))
            ∧ asError (GoError.plain (cmd ++ str ": " ++ m)) = none
            ∧ (GoError.plain (cmd ++ str ": " ++ m)).Error = cmd ++ str ": " ++ m)
      ∧ (∀ t, c.err = some t → Client.command env tr c cmd args = (([], some t), c)) := by
  refine ⟨?_, ?_, ?_⟩
  · intro hc e he
    cases hw : (tr.PrintfLine (commandLine cmd args) c.conn).1 with
    | some w =>
      rw [command_write_fails env tr c cmd args hc w hw] at he
      simp only [Option.some.injEq] at he
      subst he
      exact ⟨rfl, Or.inl ⟨w, rfl, rfl⟩⟩
    | none =>
      rw [command_write_ok env tr c cmd args hc hw] at he
      rcases hp : (parseResponseLine env tr.ReadLine
          (tr.PrintfLine (commandLine cmd args) c.conn).2).1 with ⟨resp, perr⟩
      rw [hp] at he
      cases perr with
      | none => simp at he
      | some p =>
        simp only [Option.some.injEq] at he
        subst he
        exact ⟨rfl, Or.inr ⟨rfl, p, rfl, rfl⟩⟩
  · intro hc m hw hr
    refine ⟨?_, rfl, rfl⟩
    rw [command_write_ok env tr c cmd args hc hw,
      parseResponseLine_err_line env tr.ReadLine _ m hr]
    rfl
  · intro t ht
    exact command_terminal env tr c t ht cmd args

theorem command_failure_names_command_witness :
    (Client.command env64 scripted
          { conn := { incoming := [str "-ERR " ++ str "no such message"], closed := false },
            err := none, addr := 0, log := [] } (str "DELE") [Arg.int 1]).1
        = ([], some (GoError.plain (str "DELE" ++ str ": " ++ str "no such message")))
      ∧ asError (GoError.plain (str "DELE: unexpected response: 2 700")) = none
      ∧ Client.command env64 scripted
          { conn := { incoming := [], closed := false },
            err := some ErrAlreadyQuit, addr := 0, log := [] } (str "NOOP") []
        = (([], some ErrAlreadyQuit),
            { conn := { incoming := [], closed := false },
              err := some ErrAlreadyQuit, addr := 0, log := [] }) := by
  have hline : commandLine (str "DELE") [Arg.int 1] = str "DELE 1" := by
    simp [commandLine, Sprintln, Arg.format, FormatInt, formatNat, decDigits]
    decide
  refine ⟨?_, ?_, ?_⟩
  · exact ((command_failure_names_command env64 scripted
      { conn := { incoming := [str "-ERR " ++ str "no such message"], closed := false },
        err := none, addr := 0, log := [] } (str "DELE") [Arg.int 1]).2.1 rfl
      (str "no such message") rfl rfl).1
  · exact ((command_failure_names_command env64 scripted
      { conn := { incoming := [str "2 700"], closed := false },
        err := none, addr := 0, log := [] } (str "DELE") [Arg.int 1]).1 rfl
      (GoError.plain (str "DELE: unexpected response: 2 700"))
      (by rw [command_write_ok env64 scripted _ (str "DELE") [Arg.int 1] rfl rfl, hline]
          decide)).1
  · exact (command_failure_names_command env64 scripted
      { conn := { incoming := [], closed := false },
        err := some ErrAlreadyQuit, addr := 0, log := [] } (str "NOOP") []).2.2
      ErrAlreadyQuit rfl

/-! ### The handshake -/

theorem NewClient_unfold {σ : Type} (env : GoEnv) (tr : Transport σ) (conn : σ) (addr : Nat) :
    NewClient env tr conn addr
      = (match (parseResponseLine env tr.ReadLine conn).1.2 with
          | some err => ((none, some (newError (str "new") err).toError),
              { conn := (tr.ReadLine conn).2, err := none, addr := addr, log := [Event.read] })
          | none => ((some { conn := (tr.ReadLine conn).2, err := none, addr := addr,
                              log := [Event.read] }, none),
              { conn := (tr.ReadLine conn).2, err := none, addr := addr,
                log := [Event.read] })) := by
  unfold NewClient
  rw [parseResponseLine_client]
  rcases hp : (parseResponseLine env tr.ReadLine conn).1 with ⟨resp, perr⟩
  cases perr <;> rfl

theorem parseResponseLine_ok_read {ρ : Type} (env : GoEnv)
    (ReadLine : ρ → (GoString × Option GoError) × ρ) (r : ρ) :
    (parseResponseLine env ReadLine r).1.2 = none
      ↔ ∃ line, (ReadLine r).1 = (line, none) ∧ line.take 3 = str "+OK" := by
  rcases hr : ReadLine r with ⟨⟨line, err⟩, r1⟩
  cases err with
  | some e =>
    rw [parseResponseLine_read_error env ReadLine r r1 line e hr]
    simp
  | none =>
    rw [parseResponseLine_ok_iff env ReadLine r r1 line hr]
    simp

/-- C15: `NewClient` performs exactly one read and no write; it produces a client,
with no terminal error, exactly when that read succeeds and the greeting
begins with "+OK"; otherwise the client is nil and the error is a structured
`Error` with context "new" whose root cause is the (non-structured) failure
of the read or of the classification. -/
theorem NewClient_handshake {σ : Type} (env : GoEnv) (tr : Transport σ) (conn : σ)
    (addr : Nat) :
    (NewClient env tr conn addr).2
        = { conn := (tr.ReadLine conn).2, err := none, addr := addr, log := [Event.read] }
      ∧ (((NewClient env tr conn addr).1.1).isSome = true
          ↔ ∃ line, (tr.ReadLine conn).1 = (line, none) ∧ line.take 3 = str "+OK")
      ∧ (∀ cl, (NewClient env tr conn addr).1.1 = some cl →
          (NewClient env tr conn addr).1.2 = none
            ∧ cl = { conn := (tr.ReadLine conn).2, err := none, addr := addr,
                     log := [Event.read] })
      ∧ ((NewClient env tr conn addr).1.1 = none →
          ∃ cause, (parseResponseLine env tr.ReadLine conn).1.2 = some cause
            ∧ asError cause = none
            ∧ (NewClient env tr conn addr).1.2 = some (GoError.structured (str "new") cause))
      ∧ (∀ line e, (tr.ReadLine conn).1 = (line, some e) →
          (NewClient env tr conn addr).1
            = (none, some (GoError.structured (str "new")
                (GoError.plain (str "read line: " ++ e.Error))))) := by
  have hu := NewClient_unfold env tr conn addr
  have hiff := parseResponseLine_ok_read env tr.ReadLine conn
  cases hp : (parseResponseLine env tr.ReadLine conn).1.2 with
  | none =>
    rw [hp] at hu hiff
    simp only at hu
    refine ⟨by rw [hu], ?_, ?_, ?_, ?_⟩
    · rw [hu]
      simpa using hiff
    · intro cl hcl
      rw [hu] at hcl ⊢
      simp only [Option.some.injEq] at hcl
      exact ⟨rfl, hcl.symm⟩
    · intro hnone
      rw [hu] at hnone
      simp at hnone
    · intro line e hr
      have hr2 : tr.ReadLine conn = ((line, some e), (tr.ReadLine conn).2) := by rw [← hr]
      rw [parseResponseLine_read_error env tr.ReadLine conn _ line e hr2] at hp
      simp at hp
  | some cause =>
    have hplain := parseResponseLine_err_plain env tr.ReadLine conn cause hp
    have hnew : (newError (str "new") cause).toError = GoError.structured (str "new") cause := by
      rw [asError_newError_plain (str "new") cause hplain]
      rfl
    rw [hp] at hu hiff
    simp only at hu
    rw [hnew] at hu
    refine ⟨by rw [hu], ?_, ?_, ?_, ?_⟩
    · rw [hu]
      simpa using hiff
    · intro cl hcl
      rw [hu] at hcl
      simp at hcl
    · intro _
      exact ⟨cause, rfl, hplain, by rw [hu]⟩
    · intro line e hr
      have hr2 : tr.ReadLine conn = ((line, some e), (tr.ReadLine conn).2) := by rw [← hr]
      rw [parseResponseLine_read_error env tr.ReadLine conn _ line e hr2] at hp
      simp only [Option.some.injEq] at hp
      rw [hu, ← hp]

theorem NewClient_handshake_witness :
    NewClient env64 scripted { incoming := [str "+OK ready", str "x"], closed := false } 5
        = ((some { conn := { incoming := [str "x"], closed := false }, err := none, addr := 5,
                   log := [Event.read] }, none),
            { conn := { incoming := [str "x"], closed := false }, err := none, addr := 5,
              log := [Event.read] })
      ∧ (NewClient env64 scripted { incoming := [], closed := false } 5).1
        = (none, some (GoError.structured (str "new") (GoError.plain (str "read line: EOF")))) :=
  ⟨by decide,
   (NewClient_handshake env64 scripted { incoming := [], closed := false } 5).2.2.2.2
     [] ioEOF rfl⟩

/-! ### Message sizes -/

theorem GetSize_cached_call {σ : Type} (env : GoEnv) (tr : Transport σ) (m : Message)
    (c : Client σ) (h : m.n > 0) :
    Message.GetSize env tr m c = ((m.n, none), m, c) := by
  simp [Message.GetSize, h]

/-- C16: on a handle whose cached size is positive, `GetSize` returns that size
and no error and leaves the handle and the client (connection and log
included) as they were; so after any sequence of `GetSize` calls the handle
is unchanged. -/
theorem GetSize_cached {σ : Type} (env : GoEnv) (tr : Transport σ) (m : Message)
    (h : m.n > 0) :
    (∀ c : Client σ, Message.GetSize env tr m c = ((m.n, none), m, c))
      ∧ (∀ cs : List (Client σ), Message.GetSizeSeq env tr cs m = m) := by
  refine ⟨fun c => GetSize_cached_call env tr m c h, ?_⟩
  intro cs
  induction cs with
  | nil => rfl
  | cons c cs ih =>
    simp only [Message.GetSizeSeq, GetSize_cached_call env tr m c h]
    exact ih

theorem GetSize_cached_witness :
    (∀ c : Client Scripted,
        Message.GetSize env64 scripted { c := 0, i := 2, n := 700 } c
          = ((700, none), { c := 0, i := 2, n := 700 }, c))
      ∧ (∀ cs : List (Client Scripted),
        Message.GetSizeSeq env64 scripted cs { c := 0, i := 2, n := 700 }
          = { c := 0, i := 2, n := 700 }) :=
  GetSize_cached env64 scripted { c := 0, i := 2, n := 700 } (by decide)

/-! ### Unexpected responses -/

theorem parseResponseLine_other {ρ : Type} (env : GoEnv)
    (ReadLine : ρ → (GoString × Option GoError) × ρ) (r r1 : ρ) (line : GoString)
    (h : ReadLine r = ((line, none), r1)) (hlen : 3 ≤ line.length)
    (hok : line.take 3 ≠ str "+OK") (herr : line.take 4 ≠ str "-ERR") :
    parseResponseLine env ReadLine r
      = (([], some (GoError.plain (str "unexpected response: " ++ line))), r1) := by
  have h1 : ¬ line.length < 1 := by omega
  have h3 : ¬ line.length < 3 := by omega
  simp [parseResponseLine, h, h1, h3, hok, herr]

/-- C18: a line of at least 3 characters that begins with neither "+OK" nor
"-ERR" fails with "unexpected response: " followed by the raw line; and a
line read without error classifies as success exactly when it begins with
the three characters "+OK". -/
theorem parseResponseLine_unexpected {ρ : Type} (env : GoEnv)
    (ReadLine : ρ → (GoString × Option GoError) × ρ) (r r1 : ρ) (line : GoString)
    (h : ReadLine r = ((line, none), r1)) :
    (3 ≤ line.length → line.take 3 ≠ str "+OK" → line.take 4 ≠ str "-ERR" →
        parseResponseLine env ReadLine r
          = (([], some (GoError.plain (str "unexpected response: " ++ line))), r1))
      ∧ ((parseResponseLine env ReadLine r).1.2 = none ↔ line.take 3 = str "+OK") := by
  exact ⟨parseResponseLine_other env ReadLine r r1 line h,
    parseResponseLine_ok_iff env ReadLine r r1 line h⟩

theorem parseResponseLine_unexpected_witness :
    parseResponseLine env64 Scripted.ReadLine { incoming := [str "2 700"], closed := false }
        = (([], some (GoError.plain (str "unexpected response: 2 700"))),
            { incoming := [], closed := false })
      ∧ ((parseResponseLine env64 Scripted.ReadLine
            { incoming := [str "-ER"], closed := false }).1.2 = none
          ↔ (str "-ER").take 3 = str "+OK") :=
  ⟨by
    have h := (parseResponseLine_unexpected env64 Scripted.ReadLine
      { incoming := [str "2 700"], closed := false } { incoming := [], closed := false }
      (str "2 700") rfl).1 (by decide) (by decide) (by decide)
    rw [h]
    decide,
   (parseResponseLine_unexpected env64 Scripted.ReadLine
      { incoming := [str "-ER"], closed := false } { incoming := [], closed := false }
      (str "-ER") rfl).2⟩

/-! ### What a failed listing parse returns -/

theorem Sscanf_failure_size (env : GoEnv) (list : GoString) (e : GoError)
    (h : (Sscanf env list).2.2 = some e) : (Sscanf env list).2.1 = 0 := by
  unfold Sscanf at h ⊢
  repeat' split at h
  all_goals first
    | rfl
    | (simp at h)

theorem Sscanf_index_scanned (env : GoEnv) (list : GoString)
    (h : (Sscanf env list).1 ≠ 0) :
    ∃ s0 s1, SkipSpace (runes list) 0 = Except.ok s0
      ∧ scanInt env env.intSize.bits s0 = Except.ok ((Sscanf env list).1, s1) := by
  unfold Sscanf at h ⊢
  cases h0 : SkipSpace (runes list) 0 with
  | error e0 =>
    rw [h0] at h
    simp at h
  | ok s0 =>
    cases h1 : scanInt env env.intSize.bits s0 with
    | error e1 =>
      rw [h0] at h
      simp only [h1] at h
      simp at h
    | ok r =>
      obtain ⟨num, s1⟩ := r
      refine ⟨s0, s1, rfl, ?_⟩
      simp only [h1]
      repeat' split
      all_goals rfl

theorem parseListResponse_fields (env : GoEnv) (list : GoString) :
    (parseListResponse env list).1 = (Sscanf env list).1
      ∧ (parseListResponse env list).2.1 = (Sscanf env list).2.1
      ∧ ((parseListResponse env list).2.2 = none ↔ (Sscanf env list).2.2 = none) := by
  unfold parseListResponse
  rcases hs : Sscanf env list with ⟨num, size, err⟩
  cases err <;> simp

/-- C19 (as stated, refuted): on the input "1" `parseListResponse` fails and
returns the index 1, not zero. -/
theorem parseListResponse_index_kept :
    (parseListResponse env64 (str "1")).2.2 ≠ none
      ∧ (parseListResponse env64 (str "1")).1 = 1
      ∧ ¬ ((parseListResponse env64 (str "1")).1 = 0
            ∧ (parseListResponse env64 (str "1")).2.1 = 0) := by
  refine ⟨?_, ?_, ?_⟩ <;> decide

/-! ### Fetching a size -/

theorem command_err_plain {σ : Type} (env : GoEnv) (tr : Transport σ) (c : Client σ)
    (cmd : GoString) (args : List Arg)
    (hwf : c.err = none ∨ c.err = some ErrAlreadyQuit) (e : GoError)
    (h : (Client.command env tr c cmd args).1.2 = some e) : asError e = none := by
  rcases hwf with hc | hc
  · cases hw : (tr.PrintfLine (commandLine cmd args) c.conn).1 with
    | some e2 =>
      rw [command_write_fails env tr c cmd args hc e2 hw] at h
      simp only [Option.some.injEq] at h
      subst h
      rfl
    | none =>
      rw [command_write_ok env tr c cmd args hc hw] at h
      rcases hp : (parseResponseLine env tr.ReadLine
          (tr.PrintfLine (commandLine cmd args) c.conn).2).1 with ⟨resp, perr⟩
      rw [hp] at h
      cases perr with
      | none => simp at h
      | some e3 =>
        simp only [Option.some.injEq] at h
        subst h
        rfl
  · rw [command_terminal env tr c ErrAlreadyQuit hc] at h
    simp only [Option.some.injEq] at h
    subst h
    rfl

theorem parseListResponse_err_plain (env : GoEnv) (list : GoString) (e : GoError)
    (h : (parseListResponse env list).2.2 = some e) : asError e = none := by
  unfold parseListResponse at h
  rcases hs : Sscanf env list with ⟨num, size, err⟩
  rw [hs] at h
  cases err with
  | none => simp at h
  | some e2 =>
    simp only [Option.some.injEq] at h
    subst h
    rfl

theorem commandLine_one_int (cmd : GoString) (i : Int) :
    commandLine cmd [Arg.int i] = cmd ++ str " " ++ FormatInt i := by
  have hnl : str "\n" = [10] := by decide
  simp [commandLine, Sprintln, Arg.format, hnl, ← List.append_assoc]

/-- C17: on a handle with no cached size, `GetSize` issues LIST with the handle's
index; if the command succeeds with the payload "<index> <size>" it returns
that size and stores it in the handle; if the command fails, or its payload
does not parse, the handle's size is 0 afterwards and the error returned is
a structured `Error` with context "list" around that failure. -/
theorem GetSize_fetch {σ : Type} (env : GoEnv) (tr : Transport σ) (m : Message)
    (c : Client σ) (hn : ¬ m.n > 0) (hwf : c.err = none ∨ c.err = some ErrAlreadyQuit) :
    (Message.GetSize env tr m c).2.2 = (Client.command env tr c CommandList [Arg.int m.i]).2
      ∧ commandLine CommandList [Arg.int m.i] = str "LIST" ++ str " " ++ FormatInt m.i
      ∧ (∀ idx size : Int,
          -(2 ^ (env.intSize.bits - 1)) ≤ idx → idx < 2 ^ (env.intSize.bits - 1) →
          -(2 ^ 63) ≤ size → size < 2 ^ 63 →
          (Client.command env tr c CommandList [Arg.int m.i]).1 = (listLine (idx, size), none) →
          (Message.GetSize env tr m c).1 = (size, none)
            ∧ (Message.GetSize env tr m c).2.1 = { m with n := size })
      ∧ (∀ e, (Client.command env tr c CommandList [Arg.int m.i]).1.2 = some e →
          (Message.GetSize env tr m c).1.2 = some (GoError.structured (str "list") e)
            ∧ (Message.GetSize env tr m c).2.1.n = 0)
      ∧ (∀ line e, (Client.command env tr c CommandList [Arg.int m.i]).1 = (line, none) →
          (parseListResponse env line).2.2 = some e →
          (Message.GetSize env tr m c).1.2 = some (GoError.structured (str "list") e)
            ∧ (Message.GetSize env tr m c).2.1.n = 0) := by
  rcases hcmd : Client.command env tr c CommandList [Arg.int m.i] with ⟨⟨line, cerr⟩, c1⟩
  have hG : Message.GetSize env tr m c
      = (match ((line, cerr), c1) with
          | ((_, some err), c1) =>
            ((0, some (newError (str "list") err).toError), { m with n := 0 }, c1)
          | ((line, none), c1) =>
            match parseListResponse env line with
            | (_, n, some err) =>
              ((n, some (newError (str "list") err).toError), { m with n := 0 }, c1)
            | (_, n, none) => ((n, none), { m with n := n }, c1)) := by
    unfold Message.GetSize
    simp only [hn, if_false]
    rw [hcmd]
  refine ⟨?_, commandLine_one_int CommandList m.i, ?_, ?_, ?_⟩
  · rw [hG]
    cases cerr with
    | some e => rfl
    | none =>
      simp only
      rcases hp : parseListResponse env line with ⟨num, n, perr⟩
      cases perr <;> rfl
  · intro idx size h1 h2 h3 h4 hres
    simp only [Prod.mk.injEq] at hres
    obtain ⟨rfl, rfl⟩ := hres
    rw [hG]
    simp only [parseListResponse_FormatInt env idx size h1 h2 h3 h4, listLine]
    exact ⟨trivial, trivial⟩
  · intro e he
    simp only at he
    subst he
    have hplain : asError e = none := by
      apply command_err_plain env tr c CommandList [Arg.int m.i] hwf e
      rw [hcmd]
    rw [hG]
    simp only [asError_newError_plain (str "list") e hplain]
    exact ⟨rfl, trivial⟩
  · intro line2 e hres hp
    simp only [Prod.mk.injEq] at hres
    obtain ⟨rfl, rfl⟩ := hres
    have hplain := parseListResponse_err_plain env line e hp
    rw [hG]
    simp only
    rcases hpl : parseListResponse env line with ⟨num, n, perr⟩
    rw [hpl] at hp
    simp only at hp
    subst hp
    simp only [asError_newError_plain (str "list") e hplain]
    exact ⟨rfl, trivial⟩

theorem GetSize_fetch_witness :
    ((Message.GetSize env64 scripted { c := 0, i := 2, n := 0 }
          { conn := { incoming := [str "+OK 2 700"], closed := false },
            err := none, addr := 0, log := [] }).1 = (700, none)
      ∧ (Message.GetSize env64 scripted { c := 0, i := 2, n := 0 }
          { conn := { incoming := [str "+OK 2 700"], closed := false },
            err := none, addr := 0, log := [] }).2.1 = { c := 0, i := 2, n := 700 })
      ∧ ((Message.GetSize env64 scripted { c := 0, i := 2, n := 0 }
          { conn := { incoming := [str "-ERR no such message"], closed := false },
            err := none, addr := 0, log := [] }).1.2
          = some (GoError.structured (str "list")
              (GoError.plain (str "LIST: no such message")))
        ∧ (Message.GetSize env64 scripted { c := 0, i := 2, n := 0 }
          { conn := { incoming := [str "-ERR no such message"], closed := false },
            err := none, addr := 0, log := [] }).2.1.n = 0) := by
  have hline : commandLine CommandList [Arg.int 2] = str "LIST 2" := by
    rw [commandLine_one_int]
    simp [FormatInt, formatNat, decDigits]
    decide
  have hpay : listLine (2, 700) = str "2 700" := by
    simp [listLine, FormatInt, formatNat, decDigits]
    decide
  constructor
  · exact (GetSize_fetch env64 scripted { c := 0, i := 2, n := 0 }
      { conn := { incoming := [str "+OK 2 700"], closed := false },
        err := none, addr := 0, log := [] } (by decide) (Or.inl rfl)).2.2.1 2 700
      (by decide) (by decide) (by decide) (by decide)
      (by rw [command_write_ok env64 scripted _ CommandList [Arg.int 2] rfl rfl, hline, hpay]
          decide)
  · exact (GetSize_fetch env64 scripted { c := 0, i := 2, n := 0 }
      { conn := { incoming := [str "-ERR no such message"], closed := false },
        err := none, addr := 0, log := [] } (by decide) (Or.inl rfl)).2.2.2.1
      (GoError.plain (str "LIST: no such message"))
      (by rw [command_write_ok env64 scripted _ CommandList [Arg.int 2] rfl rfl, hline]
          decide)

/-! ### A listing that breaks off -/

theorem command_err_kept {σ : Type} (env : GoEnv) (tr : Transport σ) (c : Client σ)
    (cmd : GoString) (args : List Arg) :
    (Client.command env tr c cmd args).2.err = c.err := by
  cases hc : c.err with
  | some e => rw [command_terminal env tr c e hc]; exact hc
  | none =>
    cases hw : (tr.PrintfLine (commandLine cmd args) c.conn).1 with
    | some e => rw [command_write_fails env tr c cmd args hc e hw]; exact hc
    | none => rw [command_write_ok env tr c cmd args hc hw]; exact hc

theorem command_ok_active {σ : Type} (env : GoEnv) (tr : Transport σ) (c : Client σ)
    (cmd : GoString) (args : List Arg)
    (h : (Client.command env tr c cmd args).1.2 = none) : c.err = none := by
  cases hc : c.err with
  | none => rfl
  | some e =>
    rw [command_terminal env tr c e hc] at h
    simp at h

theorem FormatInt_bytes (v : Int) :
    ∃ d t, d < 10 ∧ (FormatInt v = digitByte d :: t ∨ FormatInt v = 45 :: digitByte d :: t) := by
  have hne := decDigits_ne_nil v.natAbs
  cases hds : decDigits v.natAbs with
  | nil => exact absurd hds hne
  | cons d ds =>
    have hd : d < 10 := decDigits_lt v.natAbs d (by rw [hds]; exact List.mem_cons_self _ _)
    have hminus : str "-" = [45] := by decide
    refine ⟨d, ds.map digitByte, hd, ?_⟩
    unfold FormatInt formatNat
    rw [hds]
    by_cases hv : v < 0
    · right; simp [hv, hminus]
    · left; simp [hv]

theorem listLine_not_marker (q : Int × Int) :
    3 ≤ (listLine q).length ∧ (listLine q).take 3 ≠ str "+OK"
      ∧ (listLine q).take 4 ≠ str "-ERR" := by
  obtain ⟨d1, t1, hd1, h1⟩ := FormatInt_bytes q.1
  obtain ⟨d2, t2, hd2, h2⟩ := FormatInt_bytes q.2
  have hsp : str " " = [32] := by decide
  have hlen2 : 1 ≤ (FormatInt q.2).length := by
    rcases h2 with h2 | h2 <;> rw [h2] <;> simp
  have hb := digitByte_toNat d1 hd1
  have hne43 : digitByte d1 ≠ 43 := (digitByte_ne_sign d1 hd1).1
  have hne45 : digitByte d1 ≠ 45 := (digitByte_ne_sign d1 hd1).2
  have hne69 : digitByte d1 ≠ 69 := by
    intro hc
    rw [hc] at hb
    have : (69 : UInt8).toNat = 69 := by decide
    omega
  unfold listLine
  rcases h1 with h1 | h1
  · rw [h1]
    refine ⟨by simp [hsp]; omega, ?_, ?_⟩
    · rw [str_ok]
      intro hc
      have := congrArg List.head? hc
      simp at this
      exact hne43 this
    · rw [str_err]
      intro hc
      have := congrArg List.head? hc
      simp at this
      exact hne45 this
  · rw [h1]
    refine ⟨by simp [hsp]; omega, ?_, ?_⟩
    · rw [str_ok]
      intro hc
      have := congrArg List.head? hc
      simp at this
    · rw [str_err]
      intro hc
      have := congrArg (fun l => l.tail.head?) hc
      simp at this
      exact hne69 this

theorem GetMessages_loop_malformed {σ : Type} (env : GoEnv) (tr : Transport σ)
    (pairs : List (Int × Int))
    (hfit : ∀ p ∈ pairs, (-(2 ^ (env.intSize.bits - 1)) ≤ p.1 ∧ p.1 < 2 ^ (env.intSize.bits - 1))
      ∧ (-(2 ^ 63) ≤ p.2 ∧ p.2 < 2 ^ 63))
    (bad : GoString) (e : GoError) (hbad : (parseListResponse env bad).2.2 = some e)
    (hdot : bad ≠ str ".") :
    ∀ (c1 : Client σ) (acc : List Message) (fuel : Nat) (s2 : σ), pairs.length < fuel →
      delivers tr c1.conn (pairs.map listLine ++ [bad]) = some s2 →
      Client.GetMessages.loop env tr fuel c1 acc
        = some ((none, some (GoError.structured (str "messages") e)),
            { c1 with conn := s2,
                      log := c1.log ++ List.replicate (pairs.length + 1) Event.read }) := by
  have hplain := parseListResponse_err_plain env bad e hbad
  induction pairs with
  | nil =>
    intro c1 acc fuel s2 hfuel hdel
    obtain ⟨f, rfl⟩ : ∃ f, fuel = f + 1 := ⟨fuel - 1, by simp at hfuel; omega⟩
    obtain ⟨hline, hrest⟩ := delivers_cons tr c1.conn s2 bad [] hdel
    simp only [delivers, Option.some.injEq] at hrest
    rcases hr : tr.ReadLine c1.conn with ⟨⟨l1, err⟩, s1⟩
    rw [hr] at hline hrest
    simp only [Prod.mk.injEq] at hline
    obtain ⟨rfl, rfl⟩ := hline
    simp only at hrest
    subst hrest
    rcases hp : parseListResponse env l1 with ⟨num, n, perr⟩
    rw [hp] at hbad
    simp only at hbad
    subst hbad
    simp [Client.GetMessages.loop, Client.ReadLine, hr, hdot, hp,
      asError_newError_plain (str "messages") e hplain, Error.toError]
  | cons p ps ih =>
    intro c1 acc fuel s2 hfuel hdel
    obtain ⟨f, rfl⟩ : ∃ f, fuel = f + 1 := ⟨fuel - 1, by simp at hfuel; omega⟩
    have hp := hfit p (List.mem_cons_self _ _)
    have hps : ∀ q ∈ ps, (-(2 ^ (env.intSize.bits - 1)) ≤ q.1 ∧ q.1 < 2 ^ (env.intSize.bits - 1))
        ∧ (-(2 ^ 63) ≤ q.2 ∧ q.2 < 2 ^ 63) := fun q hq => hfit q (List.mem_cons_of_mem _ hq)
    obtain ⟨hline, hrest⟩ := delivers_cons tr c1.conn s2 (listLine p) _ hdel
    rcases hr : tr.ReadLine c1.conn with ⟨⟨l1, err⟩, s1⟩
    rw [hr] at hline hrest
    simp only [Prod.mk.injEq] at hline
    obtain ⟨rfl, rfl⟩ := hline
    simp only at hrest
    have hparse : parseListResponse env (listLine p) = (p.1, p.2, none) :=
      parseListResponse_FormatInt env p.1 p.2 hp.1.1 hp.1.2 hp.2.1 hp.2.2
    have hih := ih hps { c1 with conn := s1, log := c1.log ++ [Event.read] }
      (acc ++ [{ c := c1.addr, i := p.1, n := p.2 }]) f s2
      (by simp at hfuel; omega) hrest
    simp only [Client.GetMessages.loop, Client.ReadLine, hr, listLine_ne_dot p, if_false,
      hparse]
    rw [hih]
    simp [List.replicate_succ, List.append_assoc]

/-- C20: when the LIST command succeeds and the listing breaks on a malformed line
(after any number of well-formed lines), `GetMessages` returns a nil list
and a structured `Error` with context "messages", having read up to that
line and no further: the rest of the block stays in the connection, and a
later command whose response read is handed a leftover listing line fails
on it with "unexpected response". -/
theorem GetMessages_malformed {σ : Type} (env : GoEnv) (tr : Transport σ) (c c1 : Client σ)
    (payload : GoString) (pairs : List (Int × Int))
    (hfit : ∀ p ∈ pairs, (-(2 ^ (env.intSize.bits - 1)) ≤ p.1 ∧ p.1 < 2 ^ (env.intSize.bits - 1))
      ∧ (-(2 ^ 63) ≤ p.2 ∧ p.2 < 2 ^ 63))
    (hcmd : Client.command env tr c CommandList [] = ((payload, none), c1))
    (bad : GoString) (e : GoError) (hbad : (parseListResponse env bad).2.2 = some e)
    (hdot : bad ≠ str ".")
    (s2 : σ) (hdel : delivers tr c1.conn (pairs.map listLine ++ [bad]) = some s2)
    (fuel : Nat) (hfuel : pairs.length < fuel) :
    Client.GetMessages env tr fuel c
        = some ((none, some (GoError.structured (str "messages") e)),
            { c1 with conn := s2,
                      log := c1.log ++ List.replicate (pairs.length + 1) Event.read })
      ∧ ∀ (cmd : GoString) (args : List Arg) (q : Int × Int),
          (tr.PrintfLine (commandLine cmd args) s2).1 = none →
          (tr.ReadLine (tr.PrintfLine (commandLine cmd args) s2).2).1 = (listLine q, none) →
          (Client.command env tr
              { c1 with conn := s2,
                        log := c1.log ++ List.replicate (pairs.length + 1) Event.read }
              cmd args).1
            = ([], some (GoError.plain
                (cmd ++ str ": " ++ (str "unexpected response: " ++ listLine q)))) := by
  constructor
  · unfold Client.GetMessages
    rw [hcmd]
    simp only
    exact GetMessages_loop_malformed env tr pairs hfit bad e hbad hdot c1 [] fuel s2 hfuel hdel
  · intro cmd args q hw hr
    have hc1 : c1.err = none := by
      have h1 := command_err_kept env tr c CommandList []
      have h2 := command_ok_active env tr c CommandList [] (by rw [hcmd])
      rw [hcmd] at h1
      simp only at h1
      rw [h1, h2]
    obtain ⟨hlen, hok, herr⟩ := listLine_not_marker q
    have hr2 : tr.ReadLine (tr.PrintfLine (commandLine cmd args) s2).2
        = ((listLine q, none), (tr.ReadLine (tr.PrintfLine (commandLine cmd args) s2).2).2) := by
      rw [← hr]
    rw [command_write_ok env tr
      { c1 with conn := s2,
                log := c1.log ++ List.replicate (pairs.length + 1) Event.read }
      cmd args hc1 hw]
    simp only
    rw [parseResponseLine_other env tr.ReadLine _ _ (listLine q) hr2 hlen hok herr]
    rfl

theorem GetMessages_malformed_witness :
    Client.GetMessages env64 scripted 5
          { conn := { incoming := [str "+OK 3 messages", str "1 500", str "oops", str "2 700",
                        str ".", str "+OK pong"], closed := false },
            err := none, addr := 7, log := [] }
        = some ((none, some (GoError.structured (str "messages")
                  (GoError.plain (str "parse \"oops\": expected integer")))),
            { conn := { incoming := [str "2 700", str ".", str "+OK pong"], closed := false },
              err := none, addr := 7,
              log := [Event.write (str "LIST"), Event.read, Event.read, Event.read] })
      ∧ (Client.command env64 scripted
            { conn := { incoming := [str "2 700", str ".", str "+OK pong"], closed := false },
              err := none, addr := 7,
              log := [Event.write (str "LIST"), Event.read, Event.read, Event.read] }
            CommandNoop []).1
        = ([], some (GoError.plain (str "NOOP: unexpected response: 2 700"))) := by
  have hlines : [((1 : Int), (500 : Int))].map listLine ++ [str "oops"]
      = [str "1 500", str "oops"] := by
    simp [listLine, FormatInt, formatNat, decDigits]
    decide
  have hleft : listLine (2, 700) = str "2 700" := by
    simp [listLine, FormatInt, formatNat, decDigits]
    decide
  have h := GetMessages_malformed env64 scripted
    { conn := { incoming := [str "+OK 3 messages", str "1 500", str "oops", str "2 700",
                  str ".", str "+OK pong"], closed := false },
      err := none, addr := 7, log := [] }
    { conn := { incoming := [str "1 500", str "oops", str "2 700", str ".", str "+OK pong"],
                closed := false },
      err := none, addr := 7, log := [Event.write (str "LIST"), Event.read] }
    (str "3 messages") [(1, 500)]
    (by simp [env64, IntSize.bits]) (by decide)
    (str "oops") (GoError.plain (str "parse \"oops\": expected integer")) (by decide)
    (by decide)
    { incoming := [str "2 700", str ".", str "+OK pong"], closed := false }
    (by rw [hlines]; decide) 5 (by decide)
  refine ⟨h.1, ?_⟩
  have h2 := h.2 CommandNoop [] (2, 700) rfl (by rw [hleft]; decide)
  rw [hleft] at h2
  rw [show (str "NOOP: unexpected response: 2 700")
      = CommandNoop ++ str ": " ++ (str "unexpected response: " ++ str "2 700") by decide]
  exact h2

/-! ### The terminal flag of a client in use -/

theorem loop_err_kept {σ : Type} (env : GoEnv) (tr : Transport σ) :
    ∀ (fuel : Nat) (c : Client σ) (acc : List Message)
      (r : (Option (List Message) × Option GoError) × Client σ),
      Client.GetMessages.loop env tr fuel c acc = some r → r.2.err = c.err := by
  intro fuel
  induction fuel with
  | zero =>
    intro c acc r h
    simp [Client.GetMessages.loop] at h
  | succ f ih =>
    intro c acc r h
    unfold Client.GetMessages.loop at h
    rcases hr : Client.ReadLine tr c with ⟨⟨s, rerr⟩, c1⟩
    have hc1 : c1.err = c.err := by
      have := congrArg (fun x => x.2.err) hr
      simpa [Client.ReadLine] using this.symm
    rw [hr] at h
    cases rerr with
    | some e =>
      simp only [Option.some.injEq] at h
      rw [← h]
      exact hc1
    | none =>
      simp only at h
      split at h
      · simp only [Option.some.injEq] at h
        rw [← h]
        exact hc1
      · rcases hp : parseListResponse env s with ⟨i, n, perr⟩
        rw [hp] at h
        cases perr with
        | some e =>
          simp only [Option.some.injEq] at h
          rw [← h]
          exact hc1
        | none =>
          simp only at h
          rw [ih c1 _ r h, hc1]

/-- A client made by `NewClient` has no terminal error, and every call keeps the
terminal error among nil and `ErrAlreadyQuit`: `ErrWriteAfterClose` is never
stored. -/
theorem call_terminal_flag {σ : Type} (env : GoEnv) (tr : Transport σ) (c c1 : Client σ)
    (k : Call) (hwf : c.err = none ∨ c.err = some ErrAlreadyQuit)
    (h : Client.call env tr c k = some c1) :
    c1.err = none ∨ c1.err = some ErrAlreadyQuit := by
  have hne : c.err ≠ some ErrWriteAfterClose := by
    rcases hwf with h0 | h0 <;> rw [h0] <;> decide
  cases k with
  | command cmd args =>
    simp only [Client.call, Option.some.injEq] at h
    rw [← h, command_err_kept]
    exact hwf
  | quit =>
    simp only [Client.call, Option.some.injEq] at h
    rw [← h]
    exact Or.inr (Quit_err env tr c)
  | close =>
    simp only [Client.call, Option.some.injEq] at h
    rw [← h, (Close_unfold env tr c hne).1]
    exact Or.inr (Quit_err env tr c)
  | login user pass =>
    simp only [Client.call, Option.some.injEq] at h
    rw [← h]
    unfold Client.Login
    rcases hu : Client.command env tr c CommandUser [Arg.string user] with ⟨⟨resp, uerr⟩, cu⟩
    have hcu : cu.err = c.err := by
      have := command_err_kept env tr c CommandUser [Arg.string user]
      rw [hu] at this
      exact this
    cases uerr with
    | some e => simp only; rw [hcu]; exact hwf
    | none =>
      simp only
      rw [command_err_kept, hcu]
      exact hwf
  | getMessages fuel =>
    simp only [Client.call, Client.GetMessages] at h
    rcases hl : Client.command env tr c CommandList [] with ⟨⟨resp, lerr⟩, cl⟩
    have hcl : cl.err = c.err := by
      have := command_err_kept env tr c CommandList []
      rw [hl] at this
      exact this
    rw [hl] at h
    cases lerr with
    | some e =>
      simp only [Option.map_some', Option.some.injEq] at h
      rw [← h, hcl]
      exact hwf
    | none =>
      simp only at h
      cases hloop : Client.GetMessages.loop env tr fuel cl [] with
      | none =>
        rw [hloop] at h
        simp at h
      | some r =>
        rw [hloop] at h
        simp only [Option.map_some', Option.some.injEq] at h
        rw [← h, loop_err_kept env tr fuel cl [] r hloop, hcl]
        exact hwf
  | noOperation =>
    simp only [Client.call, Option.some.injEq, Client.NoOperation] at h
    rw [← h, command_err_kept]
    exact hwf
  | getSize m =>
    simp only [Client.call, Option.some.injEq] at h
    rw [← h]
    unfold Message.GetSize
    split
    · exact hwf
    · rcases hl : Client.command env tr c CommandList [Arg.int m.i] with ⟨⟨line, lerr⟩, cl⟩
      have hcl : cl.err = c.err := by
        have := command_err_kept env tr c CommandList [Arg.int m.i]
        rw [hl] at this
        exact this
      cases lerr with
      | some e => simp only; rw [hcl]; exact hwf
      | none =>
        simp only
        rcases hp : parseListResponse env line with ⟨num, n, perr⟩
        cases perr <;> (simp only; rw [hcl]; exact hwf)
  | retrieve m =>
    simp only [Client.call, Option.some.injEq] at h
    rw [← h]
    unfold Message.Retrieve
    rcases hl : Client.command env tr c CommandRetrieve [Arg.int m.i] with ⟨⟨line, lerr⟩, cl⟩
    have hcl : cl.err = c.err := by
      have := command_err_kept env tr c CommandRetrieve [Arg.int m.i]
      rw [hl] at this
      exact this
    cases lerr with
    | some e => simp only; rw [hcl]; exact hwf
    | none =>
      simp only
      rcases hm : Client.ReadMessage tr cl with ⟨merr, cm⟩
      have hcm : cm.err = cl.err := by
        have := congrArg (fun x => x.2.err) hm
        simpa [Client.ReadMessage] using this.symm
      cases merr <;> (simp only; rw [hcm, hcl]; exact hwf)
  | delete m =>
    simp only [Client.call, Option.some.injEq, Message.Delete] at h
    rw [← h, command_err_kept]
    exact hwf

/-! ### What the scanner accepts -/

theorem isBlank_of_space (r : Nat) (h1 : isSpace r = true) (h2 : r ≠ 10) : isBlank r = true := by
  simp [isBlank, h1, h2]

theorem dropBlanks_cons_blank (r : Nat) (t : List Nat) (h : isBlank r = true) :
    dropBlanks (r :: t) = dropBlanks t := by
  simp [dropBlanks, List.dropWhile, h]

theorem dropBlanks_cons_other (r : Nat) (t : List Nat) (h : isBlank r = false) :
    dropBlanks (r :: t) = r :: t := by
  simp [dropBlanks, List.dropWhile, h]

theorem SkipSpace_dropBlanks (rs : List Nat) :
    ∀ (count : Nat) (s : ss), SkipSpace rs count = Except.ok s →
      dropBlanks rs = dropBlanks s.rs := by
  induction rs with
  | nil =>
    intro count s h
    simp only [SkipSpace, Except.ok.injEq] at h
    rw [← h]
  | cons r rest ih =>
    intro count s h
    unfold SkipSpace at h
    split at h
    · simp only [Except.ok.injEq] at h
      rw [← h]
    · split at h
      · next hcr =>
        have hb : isBlank r = true := by rw [hcr.1]; decide
        rw [dropBlanks_cons_blank r rest hb]
        exact ih _ s h
      · split at h
        · simp at h
        · next hnl =>
          split at h
          · simp only [Except.ok.injEq] at h
            rw [← h]
          · next hsp =>
            have hb : isBlank r = true :=
              isBlank_of_space r (by simpa using hsp) hnl
            rw [dropBlanks_cons_blank r rest hb]
            exact ih _ s h

theorem acceptDigits_dropWhile (rs : List Nat) :
    ∀ (count : Nat) (buf : GoString),
      (acceptDigits rs count buf).2.rs.dropWhile isDigit = rs.dropWhile isDigit := by
  induction rs with
  | nil => intro count buf; rfl
  | cons r rest ih =>
    intro count buf
    unfold acceptDigits
    split
    · rfl
    · split
      · next hd =>
        rw [ih]
        simp [List.dropWhile, hd]
      · rfl

theorem scanInt_finish (env : GoEnv) (bitSize : Nat) (rs : List Nat) (count : Nat)
    (buf : GoString) (v : Int) (s1 : ss)
    (h : (match acceptDigits rs count buf with
          | (tok, s4) =>
            match ParseInt env tok with
            | Except.error e => Except.error e
            | Except.ok i =>
              if signExtend bitSize i ≠ i then
                Except.error (errorString (str "integer overflow on token " ++ tok))
              else Except.ok (i, s4)) = Except.ok (v, s1)) :
    s1 = (acceptDigits rs count buf).2 := by
  rcases hA : acceptDigits rs count buf with ⟨tok, s4⟩
  rw [hA] at h
  simp only at h
  cases hP : ParseInt env tok with
  | error e => rw [hP] at h; simp at h
  | ok i =>
    rw [hP] at h
    simp only at h
    split at h
    · simp at h
    · simp only [Except.ok.injEq, Prod.mk.injEq] at h
      exact h.2.symm

theorem scanInt_takeInt (env : GoEnv) (bitSize : Nat) (s s1 : ss) (v : Int)
    (h : scanInt env bitSize s = Except.ok (v, s1)) :
    takeInt (dropBlanks s.rs) = some (s1.rs.dropWhile isDigit) := by
  unfold scanInt at h
  cases hS : SkipSpace s.rs s.count with
  | error e => rw [hS] at h; simp at h
  | ok s0 =>
    rw [hS] at h
    simp only at h
    have hd := SkipSpace_dropBlanks s.rs s.count s0 hS
    rw [hd]
    obtain ⟨rs0, c0⟩ := s0
    by_cases hlim : hugeWid ≤ c0
    · simp [ss.notEOF, ss.getRune, hlim] at h
    · cases rs0 with
      | nil => simp [ss.notEOF, ss.getRune, hlim] at h
      | cons r0 t0 =>
        by_cases hsg : isSign r0 = true
        · have hb : isBlank r0 = false := by
            simp only [isSign, decide_eq_true_eq] at hsg
            rcases hsg with h0 | h0 <;> subst h0 <;> decide
          rw [dropBlanks_cons_other r0 t0 hb]
          simp only [ss.notEOF, ss.getRune, hlim, if_false, ss.accept, hsg, if_true] at h
          by_cases hlim2 : hugeWid ≤ c0 + 1
          · simp [hlim2] at h
          · cases t0 with
            | nil => simp [hlim2] at h
            | cons d t2 =>
              by_cases hdg : isDigit d = true
              · simp only [hlim2, if_false, hdg, if_true] at h
                have hfin := scanInt_finish env bitSize _ _ _ v s1 h
                rw [hfin, acceptDigits_dropWhile]
                simp [takeInt, hsg, hdg]
              · simp [hlim2, hdg] at h
        · have hsg2 : isSign r0 = false := by simpa using hsg
          simp only [ss.notEOF, ss.getRune, hlim, if_false, ss.accept, hsg2,
            Bool.false_eq_true] at h
          by_cases hdg : isDigit r0 = true
          · have hb : isBlank r0 = false := by
              simp only [isDigit, decide_eq_true_eq] at hdg
              simp only [isBlank, isSpace, Bool.and_eq_false_imp, decide_eq_true_eq]
              intro hsp
              omega
            rw [dropBlanks_cons_other r0 t0 hb]
            simp only [hlim, if_false, hdg, if_true] at h
            have hfin := scanInt_finish env bitSize _ _ _ v s1 h
            rw [hfin, acceptDigits_dropWhile]
            simp [takeInt, hsg2, hdg]
          · simp [hlim, hdg] at h

theorem ParseInt_plus (env : GoEnv) (ds : List Nat) (hne : ds ≠ [])
    (hds : ∀ d ∈ ds, d < 10) (hval : decValue ds < 2 ^ 63) :
    ParseInt env (43 :: ds.map digitByte) = Except.ok ((decValue ds : Nat) : Int) := by
  have hall := all_digitByte ds hds
  have hf := foldl_digitByte_zero ds hds
  have hnil : ds.map digitByte ≠ [] := by simpa using hne
  have hlt : ¬ (2 ^ 63 ≤ decValue ds) := by omega
  have h45 : ¬ ((43 : UInt8) = 45) := by decide
  unfold ParseInt
  simp only [List.head?_cons, List.tail_cons, true_or, if_true, hall, hf, hnil,
    not_true_eq_false, or_self, if_false, Option.some.injEq, h45, decide_False,
    Bool.false_eq_true, not_false_eq_true, true_and, hlt, false_and]

theorem scanInt_plus (env : GoEnv) (bitSize : Nat) (ds : List Nat) (hne : ds ≠ [])
    (hds : ∀ d ∈ ds, d < 10) (rest : List Nat)
    (hrest : ∀ r ∈ rest.head?, isDigit r = false) (count : Nat)
    (hcount : count + 1 + ds.length ≤ hugeWid) (hval : decValue ds < 2 ^ 63)
    (hfit : signExtend bitSize ((decValue ds : Nat) : Int) = ((decValue ds : Nat) : Int)) :
    scanInt env bitSize { rs := 43 :: (ds.map (fun d => 48 + d) ++ rest), count := count }
      = Except.ok (((decValue ds : Nat) : Int),
          { rs := rest, count := count + 1 + ds.length }) := by
  cases ds with
  | nil => exact absurd rfl hne
  | cons d ds =>
    have hd : d < 10 := hds d (List.mem_cons_self _ _)
    have hds2 : ∀ x ∈ ds, x < 10 := fun x hx => hds x (List.mem_cons_of_mem _ hx)
    have hc : ¬ hugeWid ≤ count := by simp at hcount; omega
    have hc1 : ¬ hugeWid ≤ count + 1 := by simp at hcount; omega
    have hacc := acceptDigits_digits ds hds2 rest hrest (count + 1 + 1) [43, digitByte d]
      (by simp at hcount; omega)
    have hparse := ParseInt_plus env (d :: ds) hne hds hval
    simp only [List.map_cons] at hparse
    have hsp : isSpace 43 = false := by decide
    have hsg : isSign 43 = true := by decide
    have henc : EncodeRune 43 = [43] := by decide
    simp only [scanInt, List.map_cons, List.cons_append, List.append_eq,
      SkipSpace_nonspace _ _ _ hsp, ss.notEOF, ss.getRune, hc, hc1, if_false,
      ss.accept, hsg, isDigit_digit d hd, EncodeRune_digit d hd, henc, if_true,
      List.nil_append, hacc, List.singleton_append, List.cons_append, hparse, hfit, ne_eq,
      not_true_eq_false]
    simp only [List.length_cons, Nat.add_assoc, Nat.add_comm 1, Except.ok.injEq, Prod.mk.injEq,
      ss.mk.injEq, true_and]

theorem head_dropWhile_isDigit (l : List Nat) :
    ∀ r ∈ (l.dropWhile isDigit).head?, isDigit r = false := by
  induction l with
  | nil => intro r hr; simp at hr
  | cons a t ih =>
    intro r hr
    by_cases ha : isDigit a = true
    · simp only [List.dropWhile, ha] at hr
      exact ih r hr
    · have ha2 : isDigit a = false := by simpa using ha
      simp only [List.dropWhile, ha2, List.head?_cons, Option.mem_def, Option.some.injEq] at hr
      rw [← hr]
      exact ha2

theorem digit_runes_as_values (ds : List Nat) (h : ∀ r ∈ ds, isDigit r = true) :
    ds = (ds.map (fun r => r - 48)).map (fun d => 48 + d)
      ∧ ∀ d ∈ ds.map (fun r => r - 48), d < 10 := by
  constructor
  · rw [List.map_map]
    conv_lhs => rw [← List.map_id ds]
    apply List.map_congr_left
    intro r hr
    have := h r hr
    simp only [isDigit, decide_eq_true_eq] at this
    simp only [id, Function.comp]
    omega
  · intro d hd
    rw [List.mem_map] at hd
    obtain ⟨r, hr, rfl⟩ := hd
    have := h r hr
    simp only [isDigit, decide_eq_true_eq] at this
    omega

theorem runesFrom_length (l : GoString) : ∀ skip : Nat, (runesFrom skip l).length ≤ l.length := by
  induction l with
  | nil => intro skip; simp [runesFrom]
  | cons b rest ih =>
    intro skip
    cases skip with
    | zero =>
      simp only [runesFrom, List.length_cons]
      have := ih ((DecodeRune (b :: rest)).2 - 1)
      omega
    | succ k =>
      simp only [runesFrom, List.length_cons]
      have := ih k
      omega

theorem runes_length (l : GoString) : (runes l).length ≤ l.length := runesFrom_length l 0

theorem dropBlanks_length (rs : List Nat) : (dropBlanks rs).length ≤ rs.length := by
  induction rs with
  | nil => simp [dropBlanks]
  | cons r t ih =>
    by_cases hb : isBlank r = true
    · rw [dropBlanks_cons_blank r t hb]
      simp only [List.length_cons]
      omega
    · have hb2 : isBlank r = false := by simpa using hb
      rw [dropBlanks_cons_other r t hb2]

theorem isSpace_of_not_blank (r : Nat) (hb : isBlank r = false) (hnl : r ≠ 10) :
    isSpace r = false := by
  simp only [isBlank, Bool.and_eq_false_imp, bne_eq_false_iff_eq] at hb
  cases hsp : isSpace r with
  | false => rfl
  | true => exact absurd (hb hsp) hnl

theorem SkipSpace_forward (rs : List Nat) :
    ∀ count : Nat, count + rs.length < hugeWid → (dropBlanks rs).head? ≠ some 10 →
      ∃ k, SkipSpace rs count = Except.ok { rs := dropBlanks rs, count := k }
        ∧ k + (dropBlanks rs).length = count + rs.length := by
  induction rs with
  | nil =>
    intro count _ _
    exact ⟨count, rfl, rfl⟩
  | cons r rest ih =>
    intro count hlen hhead
    have hc : ¬ hugeWid ≤ count := by omega
    by_cases hb : isBlank r = true
    · have hsp : isSpace r = true := by
        simp only [isBlank, Bool.and_eq_true] at hb
        exact hb.1
      have hnl : r ≠ 10 := by
        intro h10
        subst h10
        simp [isBlank] at hb
      rw [dropBlanks_cons_blank r rest hb] at hhead ⊢
      obtain ⟨k, hk, hklen⟩ := ih (count + 1) (by simp at hlen; omega) hhead
      have hstep : SkipSpace (r :: rest) count = SkipSpace rest (count + 1) := by
        rw [SkipSpace]
        simp only [hc, if_false]
        split
        · rfl
        · simp [hnl, hsp]
      refine ⟨k, by rw [hstep, hk], ?_⟩
      simp only [List.length_cons]
      omega
    · have hb2 : isBlank r = false := by simpa using hb
      rw [dropBlanks_cons_other r rest hb2] at hhead ⊢
      have hnl : r ≠ 10 := by
        intro h10
        subst h10
        simp at hhead
      exact ⟨count, SkipSpace_nonspace r rest count (isSpace_of_not_blank r hb2 hnl), rfl⟩

theorem takeWhile_digits_split (d : Nat) (t : List Nat) (hd : isDigit d = true) :
    d :: t = (d :: t.takeWhile isDigit) ++ t.dropWhile isDigit
      ∧ (d :: t).takeWhile isDigit = d :: t.takeWhile isDigit
      ∧ ∀ r ∈ d :: t.takeWhile isDigit, isDigit r = true := by
  refine ⟨?_, ?_, ?_⟩
  · simp [List.takeWhile_append_dropWhile]
  · simp [List.takeWhile, hd]
  · intro r hr
    rw [List.mem_cons] at hr
    rcases hr with rfl | hr
    · exact hd
    · exact List.mem_takeWhile_imp hr

/-- Scanning `%d` at an integer token: the scan consumes the optional sign and
all the digits that follow, and gives the value of the token, provided it
fits and the input is shorter than the scanner's rune limit. -/
theorem scanInt_forward (env : GoEnv) (bitSize : Nat) (rs rest : List Nat) (count : Nat)
    (htake : takeInt rs = some rest) (hlen : count + rs.length < hugeWid)
    (h1 : -(2 ^ 63) ≤ leadingValue rs) (h2 : leadingValue rs < 2 ^ 63)
    (hfit : signExtend bitSize (leadingValue rs) = leadingValue rs) :
    ∃ k, scanInt env bitSize { rs := rs, count := count }
          = Except.ok (leadingValue rs, { rs := rest, count := k })
      ∧ k + rest.length = count + rs.length := by
  cases rs with
  | nil => simp [takeInt] at htake
  | cons r t =>
    by_cases hsg : isSign r = true
    · cases t with
      | nil => simp [takeInt, hsg] at htake
      | cons d t2 =>
        by_cases hd : isDigit d = true
        · simp only [takeInt, hsg, if_true, hd, Option.some.injEq] at htake
          obtain ⟨hsplit, htw, hall⟩ := takeWhile_digits_split d t2 hd
          obtain ⟨hvals, hlt⟩ := digit_runes_as_values (d :: t2.takeWhile isDigit) hall
          have hne : (d :: t2.takeWhile isDigit).map (fun r => r - 48) ≠ [] := by simp
          have hrest := head_dropWhile_isDigit t2
          rw [htake] at hsplit hrest
          have hlen2 : (d :: t2).length
              = ((d :: t2.takeWhile isDigit).map (fun r => r - 48)).length + rest.length := by
            conv_lhs => rw [hsplit]
            simp
            omega
          simp only [isSign, Bool.or_eq_true, decide_eq_true_eq] at hsg
          rcases hsg with h43 | h45
          · subst h43
            have hv : leadingValue (43 :: d :: t2)
                = ((decValue ((d :: t2.takeWhile isDigit).map (fun r => r - 48)) : Nat) : Int) := by
              simp [leadingValue, digitsValue, htw]
            rw [hv] at h1 h2 hfit ⊢
            have hscan := scanInt_plus env bitSize _ hne hlt rest hrest count
              (by simp only [List.length_cons] at hlen hlen2 ⊢; omega)
              (by norm_num at h2 ⊢; omega) hfit
            rw [← hvals, ← hsplit] at hscan
            exact ⟨_, hscan, by simp only [List.length_cons] at hlen2 ⊢; omega⟩
          · subst h45
            have hv : leadingValue (45 :: d :: t2)
                = - ((decValue ((d :: t2.takeWhile isDigit).map (fun r => r - 48)) : Nat) : Int) := by
              simp [leadingValue, digitsValue, htw]
            rw [hv] at h1 h2 hfit ⊢
            have hscan := scanInt_negative env bitSize _ hne hlt rest hrest count
              (by simp only [List.length_cons] at hlen hlen2 ⊢; omega)
              (by norm_num at h1 ⊢; omega) hfit
            rw [← hvals, ← hsplit] at hscan
            exact ⟨_, hscan, by simp only [List.length_cons] at hlen2 ⊢; omega⟩
        · simp [takeInt, hsg, hd] at htake
    · have hsg2 : isSign r = false := by simpa using hsg
      by_cases hd : isDigit r = true
      · simp only [takeInt, hsg2, Bool.false_eq_true, if_false, hd, if_true,
          Option.some.injEq] at htake
        obtain ⟨hsplit, htw, hall⟩ := takeWhile_digits_split r t hd
        obtain ⟨hvals, hlt⟩ := digit_runes_as_values (r :: t.takeWhile isDigit) hall
        have hne : (r :: t.takeWhile isDigit).map (fun r => r - 48) ≠ [] := by simp
        have hrest := head_dropWhile_isDigit t
        rw [htake] at hsplit hrest
        have hlen2 : (r :: t).length
            = ((r :: t.takeWhile isDigit).map (fun r => r - 48)).length + rest.length := by
          conv_lhs => rw [hsplit]
          simp
          omega
        have hr : r ≠ 45 ∧ r ≠ 43 := by
          simp only [isSign, Bool.or_eq_false_iff, decide_eq_false_iff_not] at hsg2
          exact ⟨fun h => hsg2 (Or.inr h), fun h => hsg2 (Or.inl h)⟩
        have hv : leadingValue (r :: t)
            = ((decValue ((r :: t.takeWhile isDigit).map (fun r => r - 48)) : Nat) : Int) := by
          simp [leadingValue, digitsValue, htw, hr.1, hr.2]
        rw [hv] at h1 h2 hfit ⊢
        have hscan := scanInt_unsigned env bitSize _ hne hlt rest hrest count
          (by simp only [List.length_cons] at hlen hlen2 ⊢; omega)
          (by norm_num at h2 ⊢; omega) hfit
        rw [← hvals, ← hsplit] at hscan
        exact ⟨_, hscan, by simp only [List.length_cons] at hlen2 ⊢; omega⟩
      · simp [takeInt, hsg2, hd] at htake

/-! ### The first operand -/

theorem Sscanf_first_index (env : GoEnv) (list : GoString) (s0 s1 : ss) (v : Int)
    (h0 : SkipSpace (runes list) 0 = Except.ok s0)
    (h1 : scanInt env env.intSize.bits s0 = Except.ok (v, s1)) :
    (Sscanf env list).1 = v := by
  unfold Sscanf
  rw [h0]
  simp only [h1]
  repeat' split
  all_goals rfl

theorem takeInt_head (rs rest : List Nat) (h : takeInt rs = some rest) :
    rs.head? ≠ some 10 := by
  cases rs with
  | nil => simp
  | cons r t =>
    intro hc
    simp only [List.head?_cons, Option.some.injEq] at hc
    subst hc
    simp [takeInt, isSign, isDigit] at h

theorem first_scan (env : GoEnv) (list : GoString) (rest : List Nat)
    (hlen : list.length < hugeWid)
    (htake : takeInt (dropBlanks (runes list)) = some rest)
    (h1 : -(2 ^ (env.intSize.bits - 1)) ≤ leadingValue (dropBlanks (runes list)))
    (h2 : leadingValue (dropBlanks (runes list)) < 2 ^ (env.intSize.bits - 1)) :
    ∃ s0 k, SkipSpace (runes list) 0 = Except.ok s0
      ∧ scanInt env env.intSize.bits s0
          = Except.ok (leadingValue (dropBlanks (runes list)), { rs := rest, count := k })
      ∧ k + rest.length < hugeWid := by
  have hrl := runes_length list
  have hdl := dropBlanks_length (runes list)
  obtain ⟨k0, hskip, hk0⟩ := SkipSpace_forward (runes list) 0 (by omega)
    (takeInt_head _ rest htake)
  have h64 := IntSize_fits env.intSize _ h1 h2
  obtain ⟨k, hscan, hk⟩ := scanInt_forward env env.intSize.bits (dropBlanks (runes list)) rest k0
    htake (by omega) h64.1 h64.2 (signExtend_fits env.intSize _ h1 h2)
  exact ⟨_, k, hskip, hscan, by omega⟩

/-- C19 (amended): whenever `parseListResponse` fails, the returned size is zero.
The returned index is zero unless a first integer was scanned before the
failure, and a first integer that was scanned is returned as the index: it
is zero when the input does not begin (after optional blanks) with an
integer, and it is that integer when the input (shorter than the scanner's
read limit) begins with an integer fitting an `int`. -/
theorem parseListResponse_failure_values (env : GoEnv) (list : GoString) (e : GoError)
    (h : (parseListResponse env list).2.2 = some e) :
    (parseListResponse env list).2.1 = 0
      ∧ ((parseListResponse env list).1 ≠ 0 →
          ∃ s0 s1, SkipSpace (runes list) 0 = Except.ok s0
            ∧ scanInt env env.intSize.bits s0
                = Except.ok ((parseListResponse env list).1, s1))
      ∧ (∀ s0 s1 v, SkipSpace (runes list) 0 = Except.ok s0 →
          scanInt env env.intSize.bits s0 = Except.ok (v, s1) →
          (parseListResponse env list).1 = v)
      ∧ (takeInt (dropBlanks (runes list)) = none → (parseListResponse env list).1 = 0)
      ∧ (list.length < hugeWid → ∀ rest, takeInt (dropBlanks (runes list)) = some rest →
          -(2 ^ (env.intSize.bits - 1)) ≤ leadingValue (dropBlanks (runes list)) →
          leadingValue (dropBlanks (runes list)) < 2 ^ (env.intSize.bits - 1) →
          (parseListResponse env list).1 = leadingValue (dropBlanks (runes list))) := by
  obtain ⟨h1, h2, h3⟩ := parseListResponse_fields env list
  have hs : ∃ e2, (Sscanf env list).2.2 = some e2 := by
    cases hse : (Sscanf env list).2.2 with
    | none =>
      rw [h3.mpr hse] at h
      simp at h
    | some e2 => exact ⟨e2, rfl⟩
  obtain ⟨e2, he2⟩ := hs
  refine ⟨by rw [h2]; exact Sscanf_failure_size env list e2 he2, ?_, ?_, ?_, ?_⟩
  · intro hne
    rw [h1] at hne ⊢
    exact Sscanf_index_scanned env list hne
  · intro s0 s1 v hskip hscan
    rw [h1]
    exact Sscanf_first_index env list s0 s1 v hskip hscan
  · intro hnone
    by_contra hne
    rw [h1] at hne
    obtain ⟨s0, s1, hskip, hscan⟩ := Sscanf_index_scanned env list hne
    have hd := SkipSpace_dropBlanks (runes list) 0 s0 hskip
    have ht := scanInt_takeInt env env.intSize.bits s0 s1 _ hscan
    rw [← hd, hnone] at ht
    simp at ht
  · intro hlen rest htake hv1 hv2
    obtain ⟨s0, k, hskip, hscan, _⟩ := first_scan env list rest hlen htake hv1 hv2
    rw [h1]
    exact Sscanf_first_index env list s0 _ _ hskip hscan

theorem parseListResponse_failure_values_witness :
    ((parseListResponse env64 (str "1")).2.1 = 0 ∧ (parseListResponse env64 (str "1")).1 = 1)
      ∧ ((parseListResponse env64 (str "7 oops")).2.1 = 0
        ∧ (parseListResponse env64 (str "7 oops")).1 = 7)
      ∧ (parseListResponse env64 (str "TEST STRING")).1 = 0 := by
  have h1 := parseListResponse_failure_values env64 (str "1")
    (GoError.plain (str "parse \"1\": EOF")) (by decide)
  have h7 := parseListResponse_failure_values env64 (str "7 oops")
    (GoError.plain (str "parse \"7 oops\": expected integer")) (by decide)
  have hT := parseListResponse_failure_values env64 (str "TEST STRING")
    (GoError.plain (str "parse \"TEST STRING\": expected integer")) (by decide)
  refine ⟨⟨h1.1, ?_⟩, ⟨h7.1, ?_⟩, hT.2.2.2.1 (by decide)⟩
  · rw [h1.2.2.2.2 (by decide) [] (by decide) (by decide) (by decide)]
    decide
  · rw [h7.2.2.2.2 (by decide) (runes (str " oops")) (by decide) (by decide) (by decide)]
    decide

end Pop3
